import Mathlib

/-!
SymbolTableManager: symbol table, scopes and allocation cursors.

A shallow embedding of `symboltablemanager.c` and proofs about its symbol store.

Modelling conventions.

* The program's global variables (`symbolTable`, `symbolCount`, `nextGlobalAddress`,
  `nextLocalOffset`, `currentScope`, `compilationErrorCount`) are the fields of `Globals`;
  every C function that touches them becomes a function on `Globals`.
* `symbolTable` is the array `SymbolEntry symbolTable[MAX_SYMBOLS]`, modelled as a map from
  index to entry.  Only the indices below `MAX_SYMBOLS` exist in the program; the functions
  below read indices below `symbolCount` only and write index `symbolCount` only, after the
  capacity test.  The slots at and above `symbolCount` are the leftover contents of the array.
* C strings are modelled as `String`; `strcmp(a, b) == 0` is equality, `strcpy` copies the
  string, `strncpy(dst, src, 19)` followed by `dst[19] = 0` keeps the first 19 characters.
  `insertSymbol` copies its arguments with an unchecked `strcpy` into `name[30]` and
  `scope[20]`: the model gives the stored strings for arguments that fit (fewer than
  `NAME_SIZE` and `SCOPE_SIZE` characters); a longer argument overruns the field in the
  source and what is then stored is not described here.  Statements about a stored name
  carry the hypothesis that the name fits.
* `int` values are modelled in `Int` without wrap-around: signed overflow has no defined
  behaviour in C, and the cursors of a run stay far below the `int` range.  `symbolCount`,
  which only counts up to `MAX_SYMBOLS`, is a `Nat`.
* `printf` output is not part of the state; the errors and the warning the assignment
  handlers print are given by separate functions (`handleExpressionDiagnostics`,
  `handleArithmeticExpressionDiagnostics`).
* The `sscanf` calls of `parseAndProcessLine` are modelled directive by directive
  (`Directive`, `sscanf`); the converted fields are taken to fit their `char[30]` buffers.
-/

namespace SymbolTableManager

/-! ## 1. Configuration and data structures -/

/-- Capacity of the symbol table: `#define MAX_SYMBOLS 100`. -/
def MAX_SYMBOLS : Nat := 100

/-- First global address: `#define GLOBAL_START_ADDRESS 1000`. -/
def GLOBAL_START_ADDRESS : Int := 1000

/-- The enum `DataType`. -/
inductive DataType where
  | TYPE_INT
  | TYPE_FLOAT
  | TYPE_CHAR
  | TYPE_UNKNOWN
deriving DecidableEq, Repr

/-- The struct `SymbolEntry`. -/
structure SymbolEntry where
  name : String
  type : DataType
  scope : String
  size : Int
  address_or_offset : Int
  status : Int
deriving DecidableEq, Repr

/-- Size of the field `char name[30]` of `SymbolEntry`. -/
def NAME_SIZE : Nat := 30

/-- Size of the field `char scope[20]` of `SymbolEntry` and of `currentScope`. -/
def SCOPE_SIZE : Nat := 20

/-- The global variables of the program. -/
structure Globals where
  symbolTable : Nat → SymbolEntry
  symbolCount : Nat
  nextGlobalAddress : Int
  nextLocalOffset : Int
  currentScope : String
  compilationErrorCount : Int

/-- A zero-initialised `SymbolEntry` (static storage). -/
def zeroEntry : SymbolEntry :=
  { name := "", type := DataType.TYPE_INT, scope := "", size := 0,
    address_or_offset := 0, status := 0 }

/-- The globals as initialised at program load (lines 28-34). -/
def initialGlobals : Globals :=
  { symbolTable := fun _ => zeroEntry
    symbolCount := 0
    nextGlobalAddress := GLOBAL_START_ADDRESS
    nextLocalOffset := 0
    currentScope := "Global"
    compilationErrorCount := 0 }

/-! ## 2. Helper functions -/

/-- Storage size of a type: `getSize`. -/
def getSize : DataType → Int
  | DataType.TYPE_INT => 4
  | DataType.TYPE_FLOAT => 8
  | DataType.TYPE_CHAR => 1
  | DataType.TYPE_UNKNOWN => 0

/-- Type keyword to type tag: `stringToType`. -/
def stringToType (typeStr : String) : DataType :=
  if typeStr = "int" then DataType.TYPE_INT
  else if typeStr = "float" then DataType.TYPE_FLOAT
  else if typeStr = "char" then DataType.TYPE_CHAR
  else DataType.TYPE_UNKNOWN

/-- Display name of a type: `typeToString`. -/
def typeToString : DataType → String
  | DataType.TYPE_INT => "INT"
  | DataType.TYPE_FLOAT => "FLOAT"
  | DataType.TYPE_CHAR => "CHAR"
  | DataType.TYPE_UNKNOWN => "UNKNOWN"

/-! ## 3. Scope management -/

/-- The first `sizeof(currentScope) - 1 = 19` characters of a scope name, which is what
`strncpy(currentScope, scopeName, 19); currentScope[19] = 0` leaves in `currentScope`. -/
def scopeCopy (scopeName : String) : String :=
  String.mk (scopeName.data.take 19)

/-- Open a scope: `pushScope`. -/
def pushScope (scopeName : String) (g : Globals) : Globals :=
  { g with currentScope := scopeCopy scopeName, nextLocalOffset := 0 }

/-- Close the scope: `popScope`. -/
def popScope (g : Globals) : Globals :=
  if g.currentScope ≠ "Global" then { g with currentScope := "Global" } else g

/-! ## 4. Core symbol table operations -/

/-- The loop of `lookupSymbol` at index `i` with `fuel` iterations left
(`fuel = symbolCount - i`). -/
def lookupLoop (tbl : Nat → SymbolEntry) (name : String) : Nat → Nat → Int
  | 0, _ => -1
  | fuel + 1, i =>
    if (tbl i).name = name then (i : Int) else lookupLoop tbl name fuel (i + 1)

/-- Index of the first entry with the given name, or `-1`: `lookupSymbol`. -/
def lookupSymbol (name : String) (g : Globals) : Int :=
  lookupLoop g.symbolTable name g.symbolCount 0

/-- The duplicate scan of `insertSymbol` (lines 132-140) at index `i` with `fuel` iterations
left: `true` when the loop reaches an entry with this name and this scope. -/
def duplicateLoop (tbl : Nat → SymbolEntry) (name scope : String) : Nat → Nat → Bool
  | 0, _ => false
  | fuel + 1, i =>
    if (tbl i).name = name ∧ (tbl i).scope = scope then true
    else duplicateLoop tbl name scope fuel (i + 1)

/-- Insert a symbol: `insertSymbol`.  The first component is the C return value.  The stored
`name` and `scope` are those of lines 143 and 145 for arguments that fit the fields, that is
`name.length < NAME_SIZE` and `scope.length < SCOPE_SIZE`; the source does not test this. -/
def insertSymbol (name : String) (type : DataType) (scope : String) (g : Globals) :
    Int × Globals :=
  if MAX_SYMBOLS ≤ g.symbolCount then
    (0, { g with compilationErrorCount := g.compilationErrorCount + 1 })
  else if duplicateLoop g.symbolTable name scope g.symbolCount 0 then
    (0, { g with compilationErrorCount := g.compilationErrorCount + 1 })
  else if scope = "Global" then
    (1, { g with
          symbolTable := Function.update g.symbolTable g.symbolCount
            { name := name, type := type, scope := scope, size := getSize type,
              address_or_offset := g.nextGlobalAddress, status := 1 }
          nextGlobalAddress := g.nextGlobalAddress + getSize type
          symbolCount := g.symbolCount + 1 })
  else
    (1, { g with
          symbolTable := Function.update g.symbolTable g.symbolCount
            { name := name, type := type, scope := scope, size := getSize type,
              address_or_offset := g.nextLocalOffset, status := 1 }
          nextLocalOffset := g.nextLocalOffset + getSize type
          symbolCount := g.symbolCount + 1 })

/-! ## 5. Semantic analysis -/

/-- A declaration statement: `handleDeclaration`. -/
def handleDeclaration (typeStr name : String) (g : Globals) : Globals :=
  if stringToType typeStr = DataType.TYPE_UNKNOWN then
    { g with compilationErrorCount := g.compilationErrorCount + 1 }
  else
    (insertSymbol name (stringToType typeStr) g.currentScope g).2

/-- A simple assignment `target = source;`: `handleExpression`. -/
def handleExpression (targetName sourceName : String) (g : Globals) : Globals :=
  let targetIndex := lookupSymbol targetName g
  let sourceIndex := lookupSymbol sourceName g
  let g1 := if targetIndex = -1 then
      { g with compilationErrorCount := g.compilationErrorCount + 1 } else g
  let g2 := if sourceIndex = -1 then
      { g1 with compilationErrorCount := g1.compilationErrorCount + 1 } else g1
  g2

/-- An arithmetic assignment `target = source op number;`: `handleArithmeticExpression`. -/
def handleArithmeticExpression (target source : String) (_op : Char) (_number : String)
    (g : Globals) : Globals :=
  let targetIndex := lookupSymbol target g
  let sourceIndex := lookupSymbol source g
  let g1 := if targetIndex = -1 then
      { g with compilationErrorCount := g.compilationErrorCount + 1 } else g
  let g2 := if sourceIndex = -1 then
      { g1 with compilationErrorCount := g1.compilationErrorCount + 1 } else g1
  g2

/-- The error and warning messages the two assignment handlers can print. -/
inductive Diagnostic where
  | undeclaredTarget (name : String)
  | undeclaredSource (name : String)
  | typeWarning (targetType sourceType : DataType)
deriving DecidableEq, Repr

/-- The errors and the warning printed by `handleExpression` (lines 188-206), in order. -/
def handleExpressionDiagnostics (targetName sourceName : String) (g : Globals) :
    List Diagnostic :=
  let targetIndex := lookupSymbol targetName g
  let sourceIndex := lookupSymbol sourceName g
  (if targetIndex = -1 then [Diagnostic.undeclaredTarget targetName] else []) ++
  (if sourceIndex = -1 then [Diagnostic.undeclaredSource sourceName] else []) ++
  (if targetIndex ≠ -1 ∧ sourceIndex ≠ -1 then
    (if (g.symbolTable targetIndex.toNat).type ≠ (g.symbolTable sourceIndex.toNat).type then
      [Diagnostic.typeWarning (g.symbolTable targetIndex.toNat).type
        (g.symbolTable sourceIndex.toNat).type]
    else [])
  else [])

/-- The errors and the warning printed by `handleArithmeticExpression` (lines 219-237), in
order. -/
def handleArithmeticExpressionDiagnostics (target source : String) (_op : Char)
    (_number : String) (g : Globals) : List Diagnostic :=
  let targetIndex := lookupSymbol target g
  let sourceIndex := lookupSymbol source g
  (if targetIndex = -1 then [Diagnostic.undeclaredTarget target] else []) ++
  (if sourceIndex = -1 then [Diagnostic.undeclaredSource source] else []) ++
  (if targetIndex ≠ -1 ∧ sourceIndex ≠ -1 then
    (if (g.symbolTable targetIndex.toNat).type ≠ (g.symbolTable sourceIndex.toNat).type then
      [Diagnostic.typeWarning (g.symbolTable targetIndex.toNat).type
        (g.symbolTable sourceIndex.toNat).type]
    else [])
  else [])

/-! ## 7. Parsing -/

/-- The C-locale `isspace`: space, and tab to carriage return (codes 9 to 13). -/
def isspace (c : Char) : Bool :=
  c.toNat = 32 || (9 ≤ c.toNat && c.toNat ≤ 13)

/-- Strip leading and trailing whitespace: `trim_whitespace`. -/
def trim_whitespace (str : List Char) : List Char :=
  ((str.dropWhile isspace).reverse.dropWhile isspace).reverse

/-- The directives of the `sscanf` formats used by `parseAndProcessLine`: a literal
character, white space, `%s`, `%[^;]` and `%c`. -/
inductive Directive where
  | lit (c : Char)
  | space
  | str
  | upToSemicolon
  | chr
deriving DecidableEq, Repr

/-- Run `sscanf` on the input: the converted fields, in order, up to the first directive that
fails.  The C return value is the number of fields (an `EOF` return, which equals none of
the counts the callers compare with, appears here as no field). -/
def sscanf : List Directive → List Char → List String
  | [], _ => []
  | Directive.lit c :: fmt, input =>
    match input with
    | [] => []
    | x :: rest => if x = c then sscanf fmt rest else []
  | Directive.space :: fmt, input => sscanf fmt (input.dropWhile isspace)
  | Directive.str :: fmt, input =>
    let field := (input.dropWhile isspace).takeWhile (fun c => !isspace c)
    if field = [] then []
    else String.mk field ::
      sscanf fmt ((input.dropWhile isspace).dropWhile (fun c => !isspace c))
  | Directive.upToSemicolon :: fmt, input =>
    let field := input.takeWhile (fun c => c ≠ ';')
    if field = [] then []
    else String.mk field :: sscanf fmt (input.dropWhile (fun c => c ≠ ';'))
  | Directive.chr :: fmt, input =>
    match input with
    | [] => []
    | x :: rest => String.mk [x] :: sscanf fmt rest

/-- The format `void %s() \x7b` of line 284. -/
def formatScope : List Directive :=
  [Directive.lit 'v', Directive.lit 'o', Directive.lit 'i', Directive.lit 'd',
    Directive.space, Directive.str, Directive.lit '(', Directive.lit ')', Directive.space,
    Directive.lit '\x7b']

/-- The format `%s %[^;];` of line 292. -/
def formatDeclaration : List Directive :=
  [Directive.str, Directive.space, Directive.upToSemicolon, Directive.lit ';']

/-- The format `%s` of line 295. -/
def formatName : List Directive :=
  [Directive.str]

/-- The format `%s = %s %c %s;` of line 305. -/
def formatArithmetic : List Directive :=
  [Directive.str, Directive.space, Directive.lit '=', Directive.space, Directive.str,
    Directive.space, Directive.chr, Directive.space, Directive.str, Directive.lit ';']

/-- The format `%s = %s;` of line 309. -/
def formatAssignment : List Directive :=
  [Directive.str, Directive.space, Directive.lit '=', Directive.space, Directive.str,
    Directive.lit ';']

/-- Process one input line: `parseAndProcessLine`.  Each `sscanf` test compares the number
of converted fields with the number the branch needs. -/
def parseAndProcessLine (rawLine : String) (g : Globals) : Globals :=
  let line := trim_whitespace rawLine.data
  if line.length = 0 ∨ line.head? = some '/' then g
  else
    match sscanf formatScope line with
    | [token1] => pushScope token1 g
    | _ =>
      if line = ['\x7d'] then popScope g
      else
        match sscanf formatDeclaration line with
        | [token1, token2] =>
          match sscanf formatName token2.data with
          | [varName] => handleDeclaration token1 varName g
          | _ => { g with compilationErrorCount := g.compilationErrorCount + 1 }
        | _ =>
          match sscanf formatArithmetic line with
          | [token1, token2, op, token3] =>
            handleArithmeticExpression token1 token2 (op.data.headD ' ') token3 g
          | _ =>
            match sscanf formatAssignment line with
            | [token1, token2] => handleExpression token1 token2 g
            | _ => g

/-! ## 8. The run reset of `main` and the statements of a run -/

/-- The reset at the start of each run (`main`, lines 369-373).  The array itself is not
cleared. -/
def resetRun (g : Globals) : Globals :=
  { g with
    symbolCount := 0
    nextGlobalAddress := GLOBAL_START_ADDRESS
    nextLocalOffset := 0
    currentScope := "Global"
    compilationErrorCount := 0 }

/-- The statements the line processor dispatches to the handlers. -/
inductive Stmt where
  | declare (typeStr name : String)
  | openScope (scopeName : String)
  | closeScope
  | assign (target source : String)
  | assignArith (target source : String) (op : Char) (number : String)
deriving DecidableEq, Repr

/-- The handler call made for a statement. -/
def exec : Stmt → Globals → Globals
  | Stmt.declare typeStr name, g => handleDeclaration typeStr name g
  | Stmt.openScope scopeName, g => pushScope scopeName g
  | Stmt.closeScope, g => popScope g
  | Stmt.assign target source, g => handleExpression target source g
  | Stmt.assignArith target source op number, g =>
    handleArithmeticExpression target source op number g

/-- Process a sequence of statements in order. -/
def run : List Stmt → Globals → Globals
  | [], g => g
  | st :: rest, g => run rest (exec st g)

/-- States reachable in a run: the reset applied to any earlier state, followed by any
sequence of statements. -/
inductive Reachable : Globals → Prop where
  | reset (g0 : Globals) : Reachable (resetRun g0)
  | step (st : Stmt) (g : Globals) : Reachable g → Reachable (exec st g)

/-- Whether the declared name of a statement, with its terminator, fits `name[30]`; the
other statements copy no name into the table. -/
def Stmt.nameFits : Stmt → Bool
  | Stmt.declare _ name => decide (name.length < NAME_SIZE)
  | _ => true

/-- Whether a statement is a scope opening. -/
def Stmt.isOpen : Stmt → Bool
  | Stmt.openScope _ => true
  | _ => false

/-! ## Concrete runs -/

/-- Scenario 1: `int x;` then `float y;` in the global scope. -/
def scenario1 : List Stmt :=
  [Stmt.declare "int" "x", Stmt.declare "float" "y"]

/-- Scenario 2: `int x;` twice. -/
def scenario2 : List Stmt :=
  [Stmt.declare "int" "x", Stmt.declare "int" "x"]

/-- Scenario 4 up to the closing brace: a scope `f` is opened, `int z;` is declared in it and
the scope is closed. -/
def scenario4Local : List Stmt :=
  [Stmt.openScope "f", Stmt.declare "int" "z", Stmt.closeScope]

/-- Scenario 4: the local `z` of `f`, then a global `z`. -/
def scenario4 : List Stmt :=
  scenario4Local ++ [Stmt.declare "int" "z"]

/-- Global declarations separated by a local scope. -/
def interleaved : List Stmt :=
  [Stmt.declare "int" "x", Stmt.openScope "f", Stmt.declare "char" "c", Stmt.closeScope,
    Stmt.declare "float" "y"]

/-- A later opening of another scope `k` with one declaration. -/
def laterOpening : List Stmt :=
  [Stmt.openScope "k", Stmt.declare "int" "c"]

/-- The scope `f` is opened twice, with one declaration each time. -/
def reopened : List Stmt :=
  [Stmt.openScope "f", Stmt.declare "int" "a", Stmt.closeScope, Stmt.openScope "f",
    Stmt.declare "int" "b"]

/-- Two declarations inside one opening of the scope `f`. -/
def twoLocals : List Stmt :=
  [Stmt.declare "int" "a", Stmt.declare "float" "b"]

/-- The state at the start of the first run. -/
def freshRun : Globals := resetRun initialGlobals

/-- The two-letter name number `k`: `aa`, `ab`, ... -/
def nameOf (k : Nat) : String :=
  String.mk [Char.ofNat (97 + k / 10), Char.ofNat (97 + k % 10)]

/-- The declarations `int aa; int ab; ...` of the first `k` two-letter names. -/
def declareMany : Nat → List Stmt
  | 0 => []
  | k + 1 => declareMany k ++ [Stmt.declare "int" (nameOf k)]

/-- The state after `MAX_SYMBOLS` accepted declarations: the table is full. -/
def fullRun : Globals :=
  run (declareMany MAX_SYMBOLS) freshRun

/-! ## Derived notions used in the statements -/

/-- The state after the accepting path of `insertSymbol` (lines 142-165). -/
def storeEntry (name : String) (type : DataType) (scope : String) (g : Globals) : Globals :=
  { g with
    symbolTable := Function.update g.symbolTable g.symbolCount
      { name := name, type := type, scope := scope, size := getSize type,
        address_or_offset :=
          if scope = "Global" then g.nextGlobalAddress else g.nextLocalOffset,
        status := 1 }
    nextGlobalAddress :=
      if scope = "Global" then g.nextGlobalAddress + getSize type else g.nextGlobalAddress
    nextLocalOffset :=
      if scope = "Global" then g.nextLocalOffset else g.nextLocalOffset + getSize type
    symbolCount := g.symbolCount + 1 }

/-- The state after a rejecting path of `insertSymbol` or of `handleDeclaration`. -/
def countError (g : Globals) : Globals :=
  { g with compilationErrorCount := g.compilationErrorCount + 1 }

/-- Some stored entry has this name and this scope. -/
def Declared (name scope : String) (g : Globals) : Prop :=
  ∃ k, k < g.symbolCount ∧ (g.symbolTable k).name = name ∧ (g.symbolTable k).scope = scope

/-- A step that stores nothing: the table, the count and the global cursor stay, and the
local cursor stays or (scope opening only) becomes 0. -/
def Quiet (st : Stmt) (g g2 : Globals) : Prop :=
  g2.symbolTable = g.symbolTable ∧ g2.symbolCount = g.symbolCount ∧
    g2.nextGlobalAddress = g.nextGlobalAddress ∧
    (g2.nextLocalOffset = g.nextLocalOffset ∨ (st.isOpen = true ∧ g2.nextLocalOffset = 0))

/-- No two stored entries have both the same name and the same scope. -/
def UniqueEntries (g : Globals) : Prop :=
  ∀ i j, i < g.symbolCount → j < g.symbolCount →
    (g.symbolTable i).name = (g.symbolTable j).name →
    (g.symbolTable i).scope = (g.symbolTable j).scope → i = j

/-- Stored sizes are positive, stored global entries end at or below the global cursor, and
a later global entry starts at or after the end of every earlier one. -/
def GlobalOrdered (g : Globals) : Prop :=
  (∀ i, i < g.symbolCount → 0 < (g.symbolTable i).size) ∧
  (∀ i, i < g.symbolCount → (g.symbolTable i).scope = "Global" →
    (g.symbolTable i).address_or_offset + (g.symbolTable i).size ≤ g.nextGlobalAddress) ∧
  (∀ i j, i < j → j < g.symbolCount → (g.symbolTable i).scope = "Global" →
    (g.symbolTable j).scope = "Global" →
    (g.symbolTable i).address_or_offset + (g.symbolTable i).size ≤
      (g.symbolTable j).address_or_offset)

/-- Among the entries stored at index `n0` or later, the local ones end at or below the local
cursor and a later local entry starts at or after the end of every earlier one. -/
def LocalOrderedFrom (n0 : Nat) (g : Globals) : Prop :=
  (∀ i, n0 ≤ i → i < g.symbolCount → (g.symbolTable i).scope ≠ "Global" →
    (g.symbolTable i).address_or_offset + (g.symbolTable i).size ≤ g.nextLocalOffset) ∧
  (∀ i j, n0 ≤ i → i < j → j < g.symbolCount → (g.symbolTable i).scope ≠ "Global" →
    (g.symbolTable j).scope ≠ "Global" →
    (g.symbolTable i).address_or_offset + (g.symbolTable i).size ≤
      (g.symbolTable j).address_or_offset)

/-- Every stored name and scope, and the current scope, fit their character arrays. -/
def StoredFit (g : Globals) : Prop :=
  (∀ i, i < g.symbolCount →
    (g.symbolTable i).name.length < NAME_SIZE ∧
    (g.symbolTable i).scope.length < SCOPE_SIZE) ∧
  g.currentScope.length < SCOPE_SIZE

/-- The store only grows: the count does not decrease and every stored entry keeps its
index and its fields. -/
def AppendOnly (g g2 : Globals) : Prop :=
  g.symbolCount ≤ g2.symbolCount ∧
    ∀ i, i < g.symbolCount → g2.symbolTable i = g.symbolTable i

/-- A successful lookup gives the same index, and the same entry there, afterwards. -/
def LookupStable (g g2 : Globals) : Prop :=
  ∀ (x : String) (i : Int), 0 ≤ i → lookupSymbol x g = i →
    lookupSymbol x g2 = i ∧ g2.symbolTable i.toNat = g.symbolTable i.toNat

/-- Sum of the sizes of the entries of scope "Global" among the first `n` slots. -/
def globalSizeSum (tbl : Nat → SymbolEntry) : Nat → Int
  | 0 => 0
  | n + 1 => globalSizeSum tbl n + (if (tbl n).scope = "Global" then (tbl n).size else 0)

/-- Every stored entry has a known type, the size of its type and status 1. -/
def WellFormedEntries (g : Globals) : Prop :=
  ∀ i, i < g.symbolCount →
    (g.symbolTable i).type ≠ DataType.TYPE_UNKNOWN ∧
    (g.symbolTable i).size = getSize (g.symbolTable i).type ∧
    (g.symbolTable i).status = 1

/-- The count is within the capacity, the global cursor is the start address plus the sizes
of the stored global entries, both cursors are bounded through the count, and stored
locations are not negative. -/
def CursorBounds (g : Globals) : Prop :=
  g.symbolCount ≤ MAX_SYMBOLS ∧
  g.nextGlobalAddress = GLOBAL_START_ADDRESS + globalSizeSum g.symbolTable g.symbolCount ∧
  GLOBAL_START_ADDRESS ≤ g.nextGlobalAddress ∧
  g.nextGlobalAddress ≤ GLOBAL_START_ADDRESS + 8 * (g.symbolCount : Int) ∧
  0 ≤ g.nextLocalOffset ∧
  g.nextLocalOffset ≤ 8 * (g.symbolCount : Int) ∧
  ∀ i, i < g.symbolCount → 0 ≤ (g.symbolTable i).address_or_offset

/-- Two states that agree on everything a run can observe: the count, the entries below the
count, both cursors, the current scope and the error count. -/
def SameVisible (g g2 : Globals) : Prop :=
  g.symbolCount = g2.symbolCount ∧
  (∀ i, i < g.symbolCount → g.symbolTable i = g2.symbolTable i) ∧
  g.nextGlobalAddress = g2.nextGlobalAddress ∧
  g.nextLocalOffset = g2.nextLocalOffset ∧
  g.currentScope = g2.currentScope ∧
  g.compilationErrorCount = g2.compilationErrorCount

/-- A scope name of 26 characters, longer than `currentScope` can hold. -/
def longScopeName : String := "abcdefghijklmnopqrstuvwxyz"

/-- Scenario 5: `int a;`, `float b;`, then `a = b;`. -/
def scenario5 : List Stmt :=
  [Stmt.declare "int" "a", Stmt.declare "float" "b", Stmt.assign "a" "b"]

/-! ## Facts about the two scanning loops -/

theorem lookupLoop_eq_neg_one_iff (tbl : Nat → SymbolEntry) (name : String) (fuel i : Nat) :
    lookupLoop tbl name fuel i = -1 ↔
      ∀ k, i ≤ k → k < i + fuel → (tbl k).name ≠ name := by
  induction fuel generalizing i with
  | zero =>
    simp only [lookupLoop, true_iff]
    intro k h1 h2
    omega
  | succ fuel ih =>
    unfold lookupLoop
    by_cases h : (tbl i).name = name
    · rw [if_pos h]
      constructor
      · intro h0
        omega
      · intro h0
        exact absurd h (h0 i (le_refl i) (by omega))
    · rw [if_neg h, ih]
      constructor
      · intro h0 k h1 h2
        by_cases hk : k = i
        · subst hk
          exact h
        · exact h0 k (by omega) (by omega)
      · intro h0 k h1 h2
        exact h0 k (by omega) (by omega)

theorem lookupLoop_eq_index_iff (tbl : Nat → SymbolEntry) (name : String) (fuel i k : Nat) :
    lookupLoop tbl name fuel i = (k : Int) ↔
      i ≤ k ∧ k < i + fuel ∧ (tbl k).name = name ∧
        ∀ j, i ≤ j → j < k → (tbl j).name ≠ name := by
  induction fuel generalizing i with
  | zero =>
    simp only [lookupLoop]
    constructor
    · intro h0
      omega
    · intro h0
      omega
  | succ fuel ih =>
    unfold lookupLoop
    by_cases h : (tbl i).name = name
    · rw [if_pos h]
      constructor
      · intro h0
        have hik : i = k := by omega
        subst hik
        refine ⟨le_refl _, by omega, h, ?_⟩
        intro j h1 h2
        omega
      · intro h0
        obtain ⟨h1, _, _, h4⟩ := h0
        by_cases hk : i = k
        · rw [hk]
        · exact absurd h (h4 i (le_refl i) (by omega))
    · rw [if_neg h, ih]
      constructor
      · intro h0
        obtain ⟨h1, h2, h3, h4⟩ := h0
        refine ⟨by omega, by omega, h3, ?_⟩
        intro j hj1 hj2
        by_cases hj : j = i
        · subst hj
          exact h
        · exact h4 j (by omega) hj2
      · intro h0
        obtain ⟨h1, h2, h3, h4⟩ := h0
        have hne : k ≠ i := by
          intro hk
          subst hk
          exact h h3
        refine ⟨by omega, by omega, h3, ?_⟩
        intro j hj1 hj2
        exact h4 j (by omega) hj2

theorem lookupLoop_range (tbl : Nat → SymbolEntry) (name : String) (fuel i : Nat) :
    lookupLoop tbl name fuel i = -1 ∨
      ∃ k : Nat, lookupLoop tbl name fuel i = (k : Int) := by
  induction fuel generalizing i with
  | zero =>
    left
    rfl
  | succ fuel ih =>
    unfold lookupLoop
    by_cases h : (tbl i).name = name
    · rw [if_pos h]
      exact Or.inr ⟨i, rfl⟩
    · rw [if_neg h]
      exact ih (i + 1)

theorem duplicateLoop_eq_true_iff (tbl : Nat → SymbolEntry) (name scope : String)
    (fuel i : Nat) :
    duplicateLoop tbl name scope fuel i = true ↔
      ∃ k, i ≤ k ∧ k < i + fuel ∧ (tbl k).name = name ∧ (tbl k).scope = scope := by
  induction fuel generalizing i with
  | zero =>
    simp only [duplicateLoop]
    constructor
    · intro h0
      exact absurd h0 (by decide)
    · intro h0
      obtain ⟨k, h1, h2, _⟩ := h0
      omega
  | succ fuel ih =>
    unfold duplicateLoop
    by_cases h : (tbl i).name = name ∧ (tbl i).scope = scope
    · rw [if_pos h]
      constructor
      · intro _
        exact ⟨i, le_refl i, by omega, h.1, h.2⟩
      · intro _
        rfl
    · rw [if_neg h, ih]
      constructor
      · intro h0
        obtain ⟨k, h1, h2, h3, h4⟩ := h0
        exact ⟨k, by omega, by omega, h3, h4⟩
      · intro h0
        obtain ⟨k, h1, h2, h3, h4⟩ := h0
        have hne : k ≠ i := by
          intro hk
          subst hk
          exact h ⟨h3, h4⟩
        exact ⟨k, by omega, by omega, h3, h4⟩

/-- The scans depend only on the slots below the bound. -/
theorem lookupLoop_congr (tbl tbl2 : Nat → SymbolEntry) (name : String) (fuel i : Nat)
    (h : ∀ k, i ≤ k → k < i + fuel → tbl2 k = tbl k) :
    lookupLoop tbl2 name fuel i = lookupLoop tbl name fuel i := by
  induction fuel generalizing i with
  | zero => rfl
  | succ fuel ih =>
    unfold lookupLoop
    rw [h i (le_refl i) (by omega), ih (i + 1)]
    intro k h1 h2
    exact h k (by omega) (by omega)

/-! ## The two outcomes of `insertSymbol` -/

theorem duplicateLoop_iff_declared (name scope : String) (g : Globals) :
    duplicateLoop g.symbolTable name scope g.symbolCount 0 = true ↔ Declared name scope g := by
  rw [duplicateLoop_eq_true_iff]
  constructor
  · intro h
    obtain ⟨k, _, h2, h3, h4⟩ := h
    exact ⟨k, by omega, h3, h4⟩
  · intro h
    obtain ⟨k, h2, h3, h4⟩ := h
    exact ⟨k, Nat.zero_le k, by omega, h3, h4⟩

theorem insertSymbol_full (name : String) (type : DataType) (scope : String) (g : Globals)
    (h : MAX_SYMBOLS ≤ g.symbolCount) :
    insertSymbol name type scope g = (0, countError g) := by
  unfold insertSymbol
  rw [if_pos h]
  rfl

theorem insertSymbol_declared (name : String) (type : DataType) (scope : String)
    (g : Globals) (h : Declared name scope g) :
    insertSymbol name type scope g = (0, countError g) := by
  unfold insertSymbol
  by_cases hc : MAX_SYMBOLS ≤ g.symbolCount
  · rw [if_pos hc]
    rfl
  · rw [if_neg hc, if_pos ((duplicateLoop_iff_declared name scope g).2 h)]
    rfl

theorem insertSymbol_fresh (name : String) (type : DataType) (scope : String) (g : Globals)
    (hc : g.symbolCount < MAX_SYMBOLS) (h : ¬ Declared name scope g) :
    insertSymbol name type scope g = (1, storeEntry name type scope g) := by
  have hd : ¬ (duplicateLoop g.symbolTable name scope g.symbolCount 0 = true) := by
    intro hd
    exact h ((duplicateLoop_iff_declared name scope g).1 hd)
  unfold insertSymbol storeEntry
  rw [if_neg (by omega), if_neg hd]
  by_cases hs : scope = "Global"
  · simp only [if_pos hs]
  · simp only [if_neg hs]

theorem insertSymbol_cases (name : String) (type : DataType) (scope : String) (g : Globals) :
    insertSymbol name type scope g = (0, countError g) ∨
      (g.symbolCount < MAX_SYMBOLS ∧ ¬ Declared name scope g ∧
        insertSymbol name type scope g = (1, storeEntry name type scope g)) := by
  by_cases hc : MAX_SYMBOLS ≤ g.symbolCount
  · exact Or.inl (insertSymbol_full name type scope g hc)
  · by_cases hd : Declared name scope g
    · exact Or.inl (insertSymbol_declared name type scope g hd)
    · exact Or.inr ⟨by omega, hd, insertSymbol_fresh name type scope g (by omega) hd⟩

theorem handleDeclaration_cases (typeStr name : String) (g : Globals) :
    handleDeclaration typeStr name g = countError g ∨
      (stringToType typeStr ≠ DataType.TYPE_UNKNOWN ∧ g.symbolCount < MAX_SYMBOLS ∧
        ¬ Declared name g.currentScope g ∧
        handleDeclaration typeStr name g =
          storeEntry name (stringToType typeStr) g.currentScope g) := by
  unfold handleDeclaration
  by_cases ht : stringToType typeStr = DataType.TYPE_UNKNOWN
  · rw [if_pos ht]
    exact Or.inl rfl
  · rw [if_neg ht]
    rcases insertSymbol_cases name (stringToType typeStr) g.currentScope g with h | h
    · rw [h]
      exact Or.inl rfl
    · obtain ⟨h1, h2, h3⟩ := h
      rw [h3]
      exact Or.inr ⟨ht, h1, h2, rfl⟩

theorem handleExpression_frame (targetName sourceName : String) (g : Globals) :
    (handleExpression targetName sourceName g).symbolTable = g.symbolTable ∧
      (handleExpression targetName sourceName g).symbolCount = g.symbolCount ∧
      (handleExpression targetName sourceName g).nextGlobalAddress = g.nextGlobalAddress ∧
      (handleExpression targetName sourceName g).nextLocalOffset = g.nextLocalOffset ∧
      (handleExpression targetName sourceName g).currentScope = g.currentScope := by
  unfold handleExpression
  by_cases h1 : lookupSymbol targetName g = -1 <;>
    by_cases h2 : lookupSymbol sourceName g = -1 <;> simp [h1, h2]

theorem handleArithmeticExpression_eq (target source : String) (op : Char) (number : String)
    (g : Globals) :
    handleArithmeticExpression target source op number g = handleExpression target source g :=
  rfl

theorem popScope_frame (g : Globals) :
    (popScope g).symbolTable = g.symbolTable ∧ (popScope g).symbolCount = g.symbolCount ∧
      (popScope g).nextGlobalAddress = g.nextGlobalAddress ∧
      (popScope g).nextLocalOffset = g.nextLocalOffset ∧
      (popScope g).compilationErrorCount = g.compilationErrorCount := by
  unfold popScope
  by_cases h : g.currentScope ≠ "Global"
  · rw [if_pos h]
    exact ⟨rfl, rfl, rfl, rfl, rfl⟩
  · rw [if_neg h]
    exact ⟨rfl, rfl, rfl, rfl, rfl⟩

/-- Every statement either stores nothing or is a declaration of a known type that stores
one entry in the current scope. -/
theorem exec_cases (st : Stmt) (g : Globals) :
    Quiet st g (exec st g) ∨
      ∃ typeStr name, st = Stmt.declare typeStr name ∧
        stringToType typeStr ≠ DataType.TYPE_UNKNOWN ∧ g.symbolCount < MAX_SYMBOLS ∧
        ¬ Declared name g.currentScope g ∧
        exec st g = storeEntry name (stringToType typeStr) g.currentScope g := by
  cases st with
  | declare typeStr name =>
    rcases handleDeclaration_cases typeStr name g with h | h
    · left
      simp only [exec]
      rw [h]
      exact ⟨rfl, rfl, rfl, Or.inl rfl⟩
    · right
      obtain ⟨h1, h2, h3, h4⟩ := h
      exact ⟨typeStr, name, rfl, h1, h2, h3, h4⟩
  | openScope scopeName =>
    left
    exact ⟨rfl, rfl, rfl, Or.inr ⟨rfl, rfl⟩⟩
  | closeScope =>
    left
    obtain ⟨h1, h2, h3, h4, _⟩ := popScope_frame g
    exact ⟨h1, h2, h3, Or.inl h4⟩
  | assign target source =>
    left
    obtain ⟨h1, h2, h3, h4, _⟩ := handleExpression_frame target source g
    exact ⟨h1, h2, h3, Or.inl h4⟩
  | assignArith target source op number =>
    left
    obtain ⟨h1, h2, h3, h4, _⟩ := handleExpression_frame target source g
    exact ⟨h1, h2, h3, Or.inl h4⟩

theorem storeEntry_old (name : String) (type : DataType) (scope : String) (g : Globals)
    (i : Nat) (h : i < g.symbolCount) :
    (storeEntry name type scope g).symbolTable i = g.symbolTable i := by
  unfold storeEntry
  exact Function.update_noteq (by omega) _ _

theorem storeEntry_new (name : String) (type : DataType) (scope : String) (g : Globals) :
    (storeEntry name type scope g).symbolTable g.symbolCount =
      { name := name, type := type, scope := scope, size := getSize type,
        address_or_offset :=
          if scope = "Global" then g.nextGlobalAddress else g.nextLocalOffset,
        status := 1 } := by
  unfold storeEntry
  exact Function.update_same _ _ _

theorem storeEntry_count (name : String) (type : DataType) (scope : String) (g : Globals) :
    (storeEntry name type scope g).symbolCount = g.symbolCount + 1 := rfl

theorem getSize_nonneg (type : DataType) : 0 ≤ getSize type := by
  cases type <;> decide

theorem getSize_pos (type : DataType) (h : type ≠ DataType.TYPE_UNKNOWN) :
    0 < getSize type := by
  cases type with
  | TYPE_INT => decide
  | TYPE_FLOAT => decide
  | TYPE_CHAR => decide
  | TYPE_UNKNOWN => exact absurd rfl h

/-! ## Invariants of a run -/

theorem uniqueEntries_storeEntry (name : String) (type : DataType) (scope : String)
    (g : Globals) (hu : UniqueEntries g) (hd : ¬ Declared name scope g) :
    UniqueEntries (storeEntry name type scope g) := by
  intro i j hi hj hn hs
  rw [storeEntry_count] at hi hj
  by_cases hi2 : i < g.symbolCount
  · by_cases hj2 : j < g.symbolCount
    · rw [storeEntry_old _ _ _ _ i hi2, storeEntry_old _ _ _ _ j hj2] at hn hs
      exact hu i j hi2 hj2 hn hs
    · have hj3 : j = g.symbolCount := by omega
      subst hj3
      rw [storeEntry_old _ _ _ _ i hi2, storeEntry_new] at hn hs
      exact absurd ⟨i, hi2, hn, hs⟩ hd
  · have hi3 : i = g.symbolCount := by omega
    subst hi3
    by_cases hj2 : j < g.symbolCount
    · rw [storeEntry_old _ _ _ _ j hj2, storeEntry_new] at hn hs
      exact absurd ⟨j, hj2, hn.symm, hs.symm⟩ hd
    · omega

theorem uniqueEntries_exec (st : Stmt) (g : Globals) (hu : UniqueEntries g) :
    UniqueEntries (exec st g) := by
  rcases exec_cases st g with h | h
  · obtain ⟨h1, h2, _, _⟩ := h
    intro i j hi hj hn hs
    rw [h2] at hi hj
    rw [h1] at hn hs
    exact hu i j hi hj hn hs
  · obtain ⟨typeStr, name, _, _, _, hd, he⟩ := h
    rw [he]
    exact uniqueEntries_storeEntry name _ _ g hu hd

theorem uniqueEntries_resetRun (g0 : Globals) : UniqueEntries (resetRun g0) := by
  intro i j hi _ _ _
  exact absurd hi (Nat.not_lt_zero i)

theorem reachable_uniqueEntries (g : Globals) (h : Reachable g) : UniqueEntries g := by
  induction h with
  | reset g0 => exact uniqueEntries_resetRun g0
  | step st g _ ih => exact uniqueEntries_exec st g ih

theorem globalOrdered_storeEntry (name : String) (type : DataType) (scope : String)
    (g : Globals) (hg : GlobalOrdered g) (ht : type ≠ DataType.TYPE_UNKNOWN) :
    GlobalOrdered (storeEntry name type scope g) := by
  obtain ⟨hg1, hg2, hg3⟩ := hg
  have hpos := getSize_pos type ht
  have hcur : g.nextGlobalAddress ≤ (storeEntry name type scope g).nextGlobalAddress := by
    unfold storeEntry
    by_cases hs : scope = "Global"
    · simp only [if_pos hs]
      omega
    · simp only [if_neg hs]
      exact le_refl _
  refine ⟨?_, ?_, ?_⟩
  · intro i hi
    rw [storeEntry_count] at hi
    by_cases hi2 : i < g.symbolCount
    · rw [storeEntry_old _ _ _ _ i hi2]
      exact hg1 i hi2
    · have hi3 : i = g.symbolCount := by omega
      subst hi3
      rw [storeEntry_new]
      exact hpos
  · intro i hi hsc
    rw [storeEntry_count] at hi
    by_cases hi2 : i < g.symbolCount
    · rw [storeEntry_old _ _ _ _ i hi2] at hsc ⊢
      exact le_trans (hg2 i hi2 hsc) hcur
    · have hi3 : i = g.symbolCount := by omega
      subst hi3
      rw [storeEntry_new] at hsc ⊢
      have hs : scope = "Global" := hsc
      unfold storeEntry
      simp only [if_pos hs]
      exact le_refl _
  · intro i j hij hj hsi hsj
    rw [storeEntry_count] at hj
    by_cases hj2 : j < g.symbolCount
    · rw [storeEntry_old _ _ _ _ i (by omega)] at hsi ⊢
      rw [storeEntry_old _ _ _ _ j hj2] at hsj ⊢
      exact hg3 i j hij hj2 hsi hsj
    · have hj3 : j = g.symbolCount := by omega
      subst hj3
      rw [storeEntry_old _ _ _ _ i hij] at hsi ⊢
      rw [storeEntry_new] at hsj ⊢
      have hs : scope = "Global" := hsj
      simp only [if_pos hs]
      exact hg2 i hij hsi

theorem globalOrdered_exec (st : Stmt) (g : Globals) (hg : GlobalOrdered g) :
    GlobalOrdered (exec st g) := by
  rcases exec_cases st g with h | h
  · obtain ⟨h1, h2, h3, _⟩ := h
    obtain ⟨hg1, hg2, hg3⟩ := hg
    unfold GlobalOrdered
    rw [h1, h2, h3]
    exact ⟨hg1, hg2, hg3⟩
  · obtain ⟨typeStr, name, _, ht, _, _, he⟩ := h
    rw [he]
    exact globalOrdered_storeEntry name _ _ g hg ht

theorem globalOrdered_resetRun (g0 : Globals) : GlobalOrdered (resetRun g0) := by
  refine ⟨?_, ?_, ?_⟩
  · intro i hi
    exact absurd hi (Nat.not_lt_zero i)
  · intro i hi
    exact absurd hi (Nat.not_lt_zero i)
  · intro i j _ hj
    exact absurd hj (Nat.not_lt_zero j)

theorem reachable_globalOrdered (g : Globals) (h : Reachable g) : GlobalOrdered g := by
  induction h with
  | reset g0 => exact globalOrdered_resetRun g0
  | step st g _ ih => exact globalOrdered_exec st g ih

theorem reachable_run (stmts : List Stmt) (g : Globals) (h : Reachable g) :
    Reachable (run stmts g) := by
  induction stmts generalizing g with
  | nil => exact h
  | cons st rest ih => exact ih (exec st g) (Reachable.step st g h)

theorem localOrderedFrom_storeEntry (n0 : Nat) (name : String) (type : DataType)
    (scope : String) (g : Globals) (hl : LocalOrderedFrom n0 g) :
    LocalOrderedFrom n0 (storeEntry name type scope g) := by
  obtain ⟨hl1, hl2⟩ := hl
  have hnn := getSize_nonneg type
  have hcur : g.nextLocalOffset ≤ (storeEntry name type scope g).nextLocalOffset := by
    unfold storeEntry
    by_cases hs : scope = "Global"
    · simp only [if_pos hs]
      exact le_refl _
    · simp only [if_neg hs]
      omega
  refine ⟨?_, ?_⟩
  · intro i hn hi hsc
    rw [storeEntry_count] at hi
    by_cases hi2 : i < g.symbolCount
    · rw [storeEntry_old _ _ _ _ i hi2] at hsc ⊢
      exact le_trans (hl1 i hn hi2 hsc) hcur
    · have hi3 : i = g.symbolCount := by omega
      subst hi3
      rw [storeEntry_new] at hsc ⊢
      have hs : ¬ scope = "Global" := hsc
      unfold storeEntry
      simp only [if_neg hs]
      exact le_refl _
  · intro i j hn hij hj hsi hsj
    rw [storeEntry_count] at hj
    by_cases hj2 : j < g.symbolCount
    · rw [storeEntry_old _ _ _ _ i (by omega)] at hsi ⊢
      rw [storeEntry_old _ _ _ _ j hj2] at hsj ⊢
      exact hl2 i j hn hij hj2 hsi hsj
    · have hj3 : j = g.symbolCount := by omega
      subst hj3
      rw [storeEntry_old _ _ _ _ i hij] at hsi ⊢
      rw [storeEntry_new] at hsj ⊢
      have hs : ¬ scope = "Global" := hsj
      simp only [if_neg hs]
      exact hl1 i hn hij hsi

theorem localOrderedFrom_exec (n0 : Nat) (st : Stmt) (g : Globals)
    (hl : LocalOrderedFrom n0 g) (hst : st.isOpen = false) :
    LocalOrderedFrom n0 (exec st g) := by
  rcases exec_cases st g with h | h
  · obtain ⟨h1, h2, _, h4⟩ := h
    have h5 : (exec st g).nextLocalOffset = g.nextLocalOffset := by
      rcases h4 with h4 | h4
      · exact h4
      · rw [hst] at h4
        exact absurd h4.1 (by decide)
    obtain ⟨hl1, hl2⟩ := hl
    unfold LocalOrderedFrom
    rw [h1, h2, h5]
    exact ⟨hl1, hl2⟩
  · obtain ⟨typeStr, name, _, _, _, _, he⟩ := h
    rw [he]
    exact localOrderedFrom_storeEntry n0 name _ _ g hl

theorem localOrderedFrom_run (n0 : Nat) (stmts : List Stmt) (g : Globals)
    (hl : LocalOrderedFrom n0 g) (hno : ∀ st, st ∈ stmts → st.isOpen = false) :
    LocalOrderedFrom n0 (run stmts g) := by
  induction stmts generalizing g with
  | nil => exact hl
  | cons st rest ih =>
    simp only [run]
    apply ih
    · exact localOrderedFrom_exec n0 st g hl (hno st (List.mem_cons_self st rest))
    · intro st2 h2
      exact hno st2 (List.mem_cons_of_mem st h2)

theorem localOrderedFrom_count (g : Globals) : LocalOrderedFrom g.symbolCount g := by
  refine ⟨?_, ?_⟩
  · intro i h1 h2
    omega
  · intro i j h1 h2 h3
    omega

theorem exec_count_le (st : Stmt) (g : Globals) : g.symbolCount ≤ (exec st g).symbolCount := by
  rcases exec_cases st g with h | h
  · obtain ⟨_, h2, _, _⟩ := h
    omega
  · obtain ⟨typeStr, name, _, _, _, _, he⟩ := h
    rw [he, storeEntry_count]
    omega

theorem run_count_le (stmts : List Stmt) (g : Globals) :
    g.symbolCount ≤ (run stmts g).symbolCount := by
  induction stmts generalizing g with
  | nil => exact le_refl _
  | cons st rest ih =>
    simp only [run]
    exact le_trans (exec_count_le st g) (ih (exec st g))

/-- While nothing is stored, a local cursor that is 0 stays 0. -/
theorem run_offset_zero (stmts : List Stmt) (g : Globals) (h0 : g.nextLocalOffset = 0)
    (hc : (run stmts g).symbolCount = g.symbolCount) :
    (run stmts g).nextLocalOffset = 0 := by
  induction stmts generalizing g with
  | nil => exact h0
  | cons st rest ih =>
    simp only [run] at hc ⊢
    have hle := run_count_le rest (exec st g)
    rcases exec_cases st g with h | h
    · obtain ⟨_, h2, _, h4⟩ := h
      apply ih
      · rcases h4 with h4 | h4
        · rw [h4]
          exact h0
        · exact h4.2
      · omega
    · obtain ⟨typeStr, name, _, _, _, _, he⟩ := h
      rw [he, storeEntry_count] at hle
      rw [he] at hc
      omega

theorem scopeCopy_eq_global (scopeName : String) (h : scopeCopy scopeName = "Global") :
    scopeName = "Global" := by
  unfold scopeCopy at h
  have hd : scopeName.data.take 19 = "Global".data := congrArg String.data h
  have hlen : (scopeName.data.take 19).length = 6 := by
    rw [hd]
    rfl
  rw [List.length_take] at hlen
  have hshort : scopeName.data.length ≤ 19 := by omega
  rw [List.take_of_length_le hshort] at hd
  exact String.ext hd

theorem scopeCopy_of_short (scopeName : String) (h : scopeName.length ≤ 19) :
    scopeCopy scopeName = scopeName := by
  unfold scopeCopy
  have hlen : scopeName.data.length ≤ 19 := h
  rw [List.take_of_length_le hlen]

theorem scopeCopy_length (scopeName : String) : (scopeCopy scopeName).length ≤ 19 := by
  unfold scopeCopy
  show (scopeName.data.take 19).length ≤ 19
  rw [List.length_take]
  exact Nat.min_le_left 19 _

theorem appendOnly_lookupStable (g g2 : Globals) (h : AppendOnly g g2) :
    LookupStable g g2 := by
  obtain ⟨hc, ht⟩ := h
  intro x i hi hl
  obtain ⟨k, rfl⟩ := Int.eq_ofNat_of_zero_le hi
  unfold lookupSymbol at hl ⊢
  rw [lookupLoop_eq_index_iff] at hl ⊢
  obtain ⟨_, h2, h3, h4⟩ := hl
  have hk : k < g.symbolCount := by omega
  refine ⟨⟨Nat.zero_le k, by omega, ?_, ?_⟩, ?_⟩
  · rw [ht k hk]
    exact h3
  · intro j hj1 hj2
    rw [ht j (by omega)]
    exact h4 j hj1 hj2
  · exact ht k hk

theorem appendOnly_of_table_eq (g g2 : Globals) (h1 : g2.symbolTable = g.symbolTable)
    (h2 : g2.symbolCount = g.symbolCount) : AppendOnly g g2 := by
  refine ⟨by omega, ?_⟩
  intro i _
  rw [h1]

theorem appendOnly_storeEntry (name : String) (type : DataType) (scope : String)
    (g : Globals) : AppendOnly g (storeEntry name type scope g) := by
  refine ⟨?_, ?_⟩
  · rw [storeEntry_count]
    omega
  · intro i hi
    exact storeEntry_old name type scope g i hi

theorem appendOnly_insertSymbol (name : String) (type : DataType) (scope : String)
    (g : Globals) : AppendOnly g (insertSymbol name type scope g).2 := by
  rcases insertSymbol_cases name type scope g with h | h
  · rw [h]
    exact appendOnly_of_table_eq g _ rfl rfl
  · rw [h.2.2]
    exact appendOnly_storeEntry name type scope g

theorem appendOnly_handleDeclaration (typeStr name : String) (g : Globals) :
    AppendOnly g (handleDeclaration typeStr name g) := by
  rcases handleDeclaration_cases typeStr name g with h | h
  · rw [h]
    exact appendOnly_of_table_eq g _ rfl rfl
  · rw [h.2.2.2]
    exact appendOnly_storeEntry name _ _ g

theorem appendOnly_handleExpression (targetName sourceName : String) (g : Globals) :
    AppendOnly g (handleExpression targetName sourceName g) := by
  obtain ⟨h1, h2, _⟩ := handleExpression_frame targetName sourceName g
  exact appendOnly_of_table_eq g _ h1 h2

theorem appendOnly_popScope (g : Globals) : AppendOnly g (popScope g) := by
  obtain ⟨h1, h2, _⟩ := popScope_frame g
  exact appendOnly_of_table_eq g _ h1 h2

theorem appendOnly_trans (g g2 g3 : Globals) (h1 : AppendOnly g g2) (h2 : AppendOnly g2 g3) :
    AppendOnly g g3 := by
  obtain ⟨c1, t1⟩ := h1
  obtain ⟨c2, t2⟩ := h2
  refine ⟨by omega, ?_⟩
  intro i hi
  rw [t2 i (by omega), t1 i hi]

theorem appendOnly_exec (st : Stmt) (g : Globals) : AppendOnly g (exec st g) := by
  cases st with
  | declare typeStr name => exact appendOnly_handleDeclaration typeStr name g
  | openScope scopeName => exact appendOnly_of_table_eq g _ rfl rfl
  | closeScope => exact appendOnly_popScope g
  | assign target source => exact appendOnly_handleExpression target source g
  | assignArith target source op number => exact appendOnly_handleExpression target source g

/-- A run keeps every stored entry at its index. -/
theorem appendOnly_run (stmts : List Stmt) (g : Globals) : AppendOnly g (run stmts g) := by
  induction stmts generalizing g with
  | nil => exact ⟨le_refl _, fun _ _ => rfl⟩
  | cons st rest ih =>
    exact appendOnly_trans g (exec st g) _ (appendOnly_exec st g) (ih (exec st g))

theorem popScope_scope_fits (g : Globals) (h : g.currentScope.length < SCOPE_SIZE) :
    (popScope g).currentScope.length < SCOPE_SIZE := by
  unfold popScope
  by_cases hs : g.currentScope ≠ "Global"
  · rw [if_pos hs]
    show ("Global" : String).length < SCOPE_SIZE
    decide
  · rw [if_neg hs]
    exact h

theorem storedFit_exec (st : Stmt) (g : Globals) (hf : StoredFit g)
    (hst : st.nameFits = true) : StoredFit (exec st g) := by
  obtain ⟨hf1, hf2⟩ := hf
  cases st with
  | declare typeStr name =>
    have hname : name.length < NAME_SIZE := of_decide_eq_true hst
    rcases handleDeclaration_cases typeStr name g with h | h
    · simp only [exec]
      rw [h]
      exact ⟨hf1, hf2⟩
    · obtain ⟨_, _, _, he⟩ := h
      simp only [exec]
      rw [he]
      refine ⟨?_, hf2⟩
      intro i hi
      rw [storeEntry_count] at hi
      by_cases hi2 : i < g.symbolCount
      · rw [storeEntry_old _ _ _ _ i hi2]
        exact hf1 i hi2
      · have hi3 : i = g.symbolCount := by omega
        subst hi3
        rw [storeEntry_new]
        exact ⟨hname, hf2⟩
  | openScope scopeName =>
    refine ⟨hf1, ?_⟩
    have hlen := scopeCopy_length scopeName
    show (scopeCopy scopeName).length < SCOPE_SIZE
    unfold SCOPE_SIZE
    omega
  | closeScope =>
    obtain ⟨h1, h2, _⟩ := popScope_frame g
    refine ⟨?_, popScope_scope_fits g hf2⟩
    intro i hi
    simp only [exec] at hi ⊢
    rw [h2] at hi
    rw [h1]
    exact hf1 i hi
  | assign target source =>
    obtain ⟨h1, h2, _, _, h5⟩ := handleExpression_frame target source g
    simp only [exec]
    unfold StoredFit
    rw [h1, h2, h5]
    exact ⟨hf1, hf2⟩
  | assignArith target source op number =>
    obtain ⟨h1, h2, _, _, h5⟩ := handleExpression_frame target source g
    simp only [exec, handleArithmeticExpression_eq]
    unfold StoredFit
    rw [h1, h2, h5]
    exact ⟨hf1, hf2⟩

theorem storedFit_run (stmts : List Stmt) (g : Globals) (hf : StoredFit g)
    (hfit : stmts.all Stmt.nameFits = true) : StoredFit (run stmts g) := by
  induction stmts generalizing g with
  | nil => exact hf
  | cons st rest ih =>
    rw [List.all_cons, Bool.and_eq_true] at hfit
    exact ih (exec st g) (storedFit_exec st g hf hfit.1) hfit.2

theorem storedFit_resetRun (g0 : Globals) : StoredFit (resetRun g0) := by
  have hscope : ("Global" : String).length < SCOPE_SIZE := by decide
  refine ⟨?_, hscope⟩
  intro i hi
  exact absurd hi (Nat.not_lt_zero i)

theorem quiet_of_full (st : Stmt) (g : Globals) (h : MAX_SYMBOLS ≤ g.symbolCount) :
    Quiet st g (exec st g) := by
  rcases exec_cases st g with hq | hq
  · exact hq
  · obtain ⟨_, _, _, _, hc, _, _⟩ := hq
    omega

theorem run_of_full (stmts : List Stmt) (g : Globals) (h : MAX_SYMBOLS ≤ g.symbolCount) :
    (run stmts g).symbolCount = g.symbolCount ∧ (run stmts g).symbolTable = g.symbolTable ∧
      (run stmts g).nextGlobalAddress = g.nextGlobalAddress := by
  induction stmts generalizing g with
  | nil => exact ⟨rfl, rfl, rfl⟩
  | cons st rest ih =>
    obtain ⟨h1, h2, h3, _⟩ := quiet_of_full st g h
    obtain ⟨k1, k2, k3⟩ := ih (exec st g) (by omega)
    simp only [run]
    exact ⟨k1.trans h2, k2.trans h1, k3.trans h3⟩

/-! ## The claims -/

/-- C1, for names that fit `name[30]`. In the state reached from the reset by any sequence of
declarations, scope openings, scope closings and assignments whose declared names have fewer
than `NAME_SIZE` characters, every stored name and scope is within its field, and two
different stored entries never have both the same name and the same scope. -/
theorem uniqueness_invariant (g0 : Globals) (stmts : List Stmt)
    (hfit : stmts.all Stmt.nameFits = true) (i j : Nat)
    (hi : i < (run stmts (resetRun g0)).symbolCount)
    (hj : j < (run stmts (resetRun g0)).symbolCount) (hij : i ≠ j) :
    (((run stmts (resetRun g0)).symbolTable i).name.length < NAME_SIZE ∧
      ((run stmts (resetRun g0)).symbolTable i).scope.length < SCOPE_SIZE) ∧
    ¬ (((run stmts (resetRun g0)).symbolTable i).name =
          ((run stmts (resetRun g0)).symbolTable j).name ∧
        ((run stmts (resetRun g0)).symbolTable i).scope =
          ((run stmts (resetRun g0)).symbolTable j).scope) := by
  have hreach : Reachable (run stmts (resetRun g0)) :=
    reachable_run stmts (resetRun g0) (Reachable.reset g0)
  have hstored := storedFit_run stmts (resetRun g0) (storedFit_resetRun g0) hfit
  refine ⟨hstored.1 i hi, ?_⟩
  intro hsame
  exact hij (reachable_uniqueEntries _ hreach i j hi hj hsame.1 hsame.2)

/-- C2. Duplicate rejection is atomic: when a stored entry already has name `name` and scope
`scope`, `insertSymbol name type scope` returns 0, adds exactly 1 to
`compilationErrorCount` and leaves `symbolCount`, the whole table, both cursors and
`currentScope` unchanged. -/
theorem duplicate_rejection_atomic (g : Globals) (name : String) (type : DataType)
    (scope : String)
    (h : ∃ k, k < g.symbolCount ∧ (g.symbolTable k).name = name ∧
      (g.symbolTable k).scope = scope) :
    (insertSymbol name type scope g).1 = 0 ∧
      (insertSymbol name type scope g).2.compilationErrorCount =
        g.compilationErrorCount + 1 ∧
      (insertSymbol name type scope g).2.symbolCount = g.symbolCount ∧
      (insertSymbol name type scope g).2.symbolTable = g.symbolTable ∧
      (insertSymbol name type scope g).2.nextGlobalAddress = g.nextGlobalAddress ∧
      (insertSymbol name type scope g).2.nextLocalOffset = g.nextLocalOffset ∧
      (insertSymbol name type scope g).2.currentScope = g.currentScope := by
  rw [insertSymbol_declared name type scope g h]
  exact ⟨rfl, rfl, rfl, rfl, rfl, rfl, rfl⟩

/-- C3. Capacity rejection is atomic and persistent: when the store holds `MAX_SYMBOLS`
entries, `insertSymbol` returns 0 for every name, type and scope, adds exactly 1 to
`compilationErrorCount` and changes nothing else; and after any further statements the store
is still full and unchanged, so every later insertion is rejected in the same way. -/
theorem capacity_rejection_atomic_persistent (g : Globals)
    (h : MAX_SYMBOLS ≤ g.symbolCount) :
    (∀ (name : String) (type : DataType) (scope : String),
      (insertSymbol name type scope g).1 = 0 ∧
      (insertSymbol name type scope g).2.compilationErrorCount =
        g.compilationErrorCount + 1 ∧
      (insertSymbol name type scope g).2.symbolCount = g.symbolCount ∧
      (insertSymbol name type scope g).2.symbolTable = g.symbolTable ∧
      (insertSymbol name type scope g).2.nextGlobalAddress = g.nextGlobalAddress ∧
      (insertSymbol name type scope g).2.nextLocalOffset = g.nextLocalOffset ∧
      (insertSymbol name type scope g).2.currentScope = g.currentScope) ∧
    (∀ (stmts : List Stmt),
      (run stmts g).symbolCount = g.symbolCount ∧
      (run stmts g).symbolTable = g.symbolTable ∧
      (run stmts g).nextGlobalAddress = g.nextGlobalAddress ∧
      ∀ (name : String) (type : DataType) (scope : String),
        (insertSymbol name type scope (run stmts g)).1 = 0 ∧
        (insertSymbol name type scope (run stmts g)).2.compilationErrorCount =
          (run stmts g).compilationErrorCount + 1 ∧
        (insertSymbol name type scope (run stmts g)).2.symbolCount = g.symbolCount ∧
        (insertSymbol name type scope (run stmts g)).2.symbolTable = g.symbolTable ∧
        ∀ typeStr : String,
          (handleDeclaration typeStr name (run stmts g)).compilationErrorCount =
            (run stmts g).compilationErrorCount + 1 ∧
          (handleDeclaration typeStr name (run stmts g)).symbolCount = g.symbolCount ∧
          (handleDeclaration typeStr name (run stmts g)).symbolTable = g.symbolTable) := by
  constructor
  · intro name type scope
    rw [insertSymbol_full name type scope g h]
    exact ⟨rfl, rfl, rfl, rfl, rfl, rfl, rfl⟩
  · intro stmts
    obtain ⟨h1, h2, h3⟩ := run_of_full stmts g h
    refine ⟨h1, h2, h3, ?_⟩
    intro name type scope
    rw [insertSymbol_full name type scope (run stmts g) (by omega)]
    refine ⟨rfl, rfl, h1, h2, ?_⟩
    intro typeStr
    rcases handleDeclaration_cases typeStr name (run stmts g) with hd | hd
    · rw [hd]
      exact ⟨rfl, h1, h2⟩
    · obtain ⟨_, hc, _, _⟩ := hd
      omega

/-- C4, for arguments that fit their fields. With a name of fewer than `NAME_SIZE` and a
scope of fewer than `SCOPE_SIZE` characters, fewer than `MAX_SYMBOLS` entries and no stored
entry of name `name` and scope `scope`, `insertSymbol name type scope` returns 1, writes one
entry at index `symbolCount` with that name, type and scope (both within their fields), size
`getSize type`, status 1 and location the old `nextGlobalAddress` when the scope is "Global"
and the old `nextLocalOffset` otherwise, changes no other slot, raises `symbolCount` by 1,
advances that one cursor by `getSize type`, and leaves the other cursor, `currentScope` and
`compilationErrorCount` unchanged. -/
theorem insertion_postcondition (g : Globals) (name : String) (type : DataType)
    (scope : String) (hname : name.length < NAME_SIZE) (hscope : scope.length < SCOPE_SIZE)
    (hc : g.symbolCount < MAX_SYMBOLS)
    (hd : ¬ ∃ k, k < g.symbolCount ∧ (g.symbolTable k).name = name ∧
      (g.symbolTable k).scope = scope) :
    (insertSymbol name type scope g).1 = 1 ∧
      (insertSymbol name type scope g).2.symbolCount = g.symbolCount + 1 ∧
      (insertSymbol name type scope g).2.symbolTable g.symbolCount =
        { name := name, type := type, scope := scope, size := getSize type,
          address_or_offset :=
            if scope = "Global" then g.nextGlobalAddress else g.nextLocalOffset,
          status := 1 } ∧
      (((insertSymbol name type scope g).2.symbolTable g.symbolCount).name.length <
          NAME_SIZE ∧
        ((insertSymbol name type scope g).2.symbolTable g.symbolCount).scope.length <
          SCOPE_SIZE) ∧
      (∀ i, i ≠ g.symbolCount →
        (insertSymbol name type scope g).2.symbolTable i = g.symbolTable i) ∧
      (insertSymbol name type scope g).2.nextGlobalAddress =
        (if scope = "Global" then g.nextGlobalAddress + getSize type
          else g.nextGlobalAddress) ∧
      (insertSymbol name type scope g).2.nextLocalOffset =
        (if scope = "Global" then g.nextLocalOffset
          else g.nextLocalOffset + getSize type) ∧
      (insertSymbol name type scope g).2.currentScope = g.currentScope ∧
      (insertSymbol name type scope g).2.compilationErrorCount =
        g.compilationErrorCount := by
  rw [insertSymbol_fresh name type scope g hc hd]
  refine ⟨rfl, rfl, storeEntry_new name type scope g, ?_, ?_, rfl, rfl, rfl, rfl⟩
  · rw [storeEntry_new]
    exact ⟨hname, hscope⟩
  · intro i hi
    unfold storeEntry
    exact Function.update_noteq hi _ _

/-- C5. Monotonic global allocation: in every reachable state, for two entries of scope
"Global" at indices `i < j`, the later one starts at or after the end of the earlier one and
at a strictly larger address, whatever scope changes happened in between. -/
theorem global_allocation_monotonic (g : Globals) (h : Reachable g) (i j : Nat)
    (hij : i < j) (hj : j < g.symbolCount)
    (hsi : (g.symbolTable i).scope = "Global") (hsj : (g.symbolTable j).scope = "Global") :
    (g.symbolTable j).address_or_offset ≥
        (g.symbolTable i).address_or_offset + (g.symbolTable i).size ∧
      (g.symbolTable j).address_or_offset > (g.symbolTable i).address_or_offset := by
  obtain ⟨h1, _, h3⟩ := reachable_globalOrdered g h
  have hpos := h1 i (by omega)
  have hle := h3 i j hij hj hsi hsj
  constructor
  · exact hle
  · omega

/-- C1 at scenario 4: the two entries named `z` are both stored, in different scopes. -/
theorem uniqueness_invariant_witness :
    scenario4.all Stmt.nameFits = true ∧
      0 < (run scenario4 (resetRun initialGlobals)).symbolCount ∧
      1 < (run scenario4 (resetRun initialGlobals)).symbolCount ∧
      (0 : Nat) ≠ 1 ∧
      ((run scenario4 (resetRun initialGlobals)).symbolTable 0).name =
        ((run scenario4 (resetRun initialGlobals)).symbolTable 1).name ∧
      ¬ (((run scenario4 (resetRun initialGlobals)).symbolTable 0).name =
            ((run scenario4 (resetRun initialGlobals)).symbolTable 1).name ∧
          ((run scenario4 (resetRun initialGlobals)).symbolTable 0).scope =
            ((run scenario4 (resetRun initialGlobals)).symbolTable 1).scope) :=
  ⟨by decide, by decide, by decide, by decide, by decide,
    (uniqueness_invariant initialGlobals scenario4 (by decide) 0 1
      (by decide) (by decide) (by decide)).2⟩

/-- C2 at scenario 2: the second `int x;` is rejected, one entry and one diagnostic remain. -/
theorem duplicate_rejection_atomic_witness :
    (∃ k, k < (exec (Stmt.declare "int" "x") freshRun).symbolCount ∧
        ((exec (Stmt.declare "int" "x") freshRun).symbolTable k).name = "x" ∧
        ((exec (Stmt.declare "int" "x") freshRun).symbolTable k).scope = "Global") ∧
      (insertSymbol "x" DataType.TYPE_INT "Global"
          (exec (Stmt.declare "int" "x") freshRun)).1 = 0 ∧
      (run scenario2 freshRun).symbolCount = 1 ∧
      (run scenario2 freshRun).compilationErrorCount = 1 :=
  ⟨⟨0, by decide, by decide, by decide⟩,
    (duplicate_rejection_atomic (exec (Stmt.declare "int" "x") freshRun) "x"
      DataType.TYPE_INT "Global" ⟨0, by decide, by decide, by decide⟩).1,
    by decide, by decide⟩

set_option maxRecDepth 100000 in
/-- C3 at the full table reached by `MAX_SYMBOLS` accepted declarations: a further insertion
is rejected and counted, and a further run of declarations stores nothing. -/
theorem capacity_rejection_atomic_persistent_witness :
    Reachable fullRun ∧ MAX_SYMBOLS ≤ fullRun.symbolCount ∧
      (insertSymbol "x" DataType.TYPE_INT "Global" fullRun).1 = 0 ∧
      (insertSymbol "x" DataType.TYPE_INT "Global" fullRun).2.compilationErrorCount =
        fullRun.compilationErrorCount + 1 ∧
      (run scenario1 fullRun).symbolCount = fullRun.symbolCount :=
  ⟨reachable_run (declareMany MAX_SYMBOLS) freshRun (Reachable.reset initialGlobals),
    by decide,
    (((capacity_rejection_atomic_persistent fullRun (by decide)).1) "x"
      DataType.TYPE_INT "Global").1,
    (((capacity_rejection_atomic_persistent fullRun (by decide)).1) "x"
      DataType.TYPE_INT "Global").2.1,
    (((capacity_rejection_atomic_persistent fullRun (by decide)).2) scenario1).1⟩

/-- C4 at scenario 1: `x` is stored at 1000 with size 4, `y` at 1004 with size 8, and there are
no diagnostics. -/
theorem insertion_postcondition_witness :
    ("x" : String).length < NAME_SIZE ∧ ("Global" : String).length < SCOPE_SIZE ∧
      freshRun.symbolCount < MAX_SYMBOLS ∧
      (¬ ∃ k, k < freshRun.symbolCount ∧ (freshRun.symbolTable k).name = "x" ∧
        (freshRun.symbolTable k).scope = "Global") ∧
      (insertSymbol "x" DataType.TYPE_INT "Global" freshRun).1 = 1 ∧
      (run scenario1 freshRun).symbolTable 0 =
        { name := "x", type := DataType.TYPE_INT, scope := "Global", size := 4,
          address_or_offset := 1000, status := 1 } ∧
      (run scenario1 freshRun).symbolTable 1 =
        { name := "y", type := DataType.TYPE_FLOAT, scope := "Global", size := 8,
          address_or_offset := 1004, status := 1 } ∧
      (run scenario1 freshRun).symbolCount = 2 ∧
      (run scenario1 freshRun).compilationErrorCount = 0 :=
  ⟨by decide, by decide, by decide, by decide,
    (insertion_postcondition freshRun "x" DataType.TYPE_INT "Global" (by decide)
      (by decide) (by decide) (by decide)).1,
    by decide, by decide, by decide, by decide⟩

/-- C5 at a run with a local scope between two global declarations. -/
theorem global_allocation_monotonic_witness :
    Reachable (run interleaved freshRun) ∧
      (0 : Nat) < 2 ∧ 2 < (run interleaved freshRun).symbolCount ∧
      ((run interleaved freshRun).symbolTable 0).scope = "Global" ∧
      ((run interleaved freshRun).symbolTable 2).scope = "Global" ∧
      (((run interleaved freshRun).symbolTable 2).address_or_offset ≥
          ((run interleaved freshRun).symbolTable 0).address_or_offset +
            ((run interleaved freshRun).symbolTable 0).size ∧
        ((run interleaved freshRun).symbolTable 2).address_or_offset >
          ((run interleaved freshRun).symbolTable 0).address_or_offset) :=
  ⟨reachable_run interleaved freshRun (Reachable.reset initialGlobals), by decide, by decide,
    by decide, by decide,
    global_allocation_monotonic (run interleaved freshRun)
      (reachable_run interleaved freshRun (Reachable.reset initialGlobals)) 0 2
      (by decide) (by decide) (by decide) (by decide)⟩

/-- C6 as stated fails: after the scope `f` is opened twice with one `int` declared each
time, entries 0 and 1 both have scope `f`, entry 0 occupies offsets 0 to 3 and entry 1 is
stored at offset 0 again. -/
theorem same_scope_overlap_counterexample :
    Reachable (run reopened freshRun) ∧
      (0 : Nat) < 1 ∧ 1 < (run reopened freshRun).symbolCount ∧
      ((run reopened freshRun).symbolTable 0).scope =
        ((run reopened freshRun).symbolTable 1).scope ∧
      ((run reopened freshRun).symbolTable 0).address_or_offset = 0 ∧
      ((run reopened freshRun).symbolTable 0).size = 4 ∧
      ((run reopened freshRun).symbolTable 1).address_or_offset = 0 ∧
      ¬ (((run reopened freshRun).symbolTable 1).address_or_offset ≥
          ((run reopened freshRun).symbolTable 0).address_or_offset +
            ((run reopened freshRun).symbolTable 0).size) :=
  ⟨reachable_run reopened freshRun (Reachable.reset initialGlobals), by decide, by decide,
    by decide, by decide, by decide, by decide, by decide⟩

/-- C6, amended. Let `g` be a reachable state, `stmts` the statements processed next and
`later` any statements processed after them. In the final state, for two stored entries of
the same scope at indices `i < j`: when the scope is "Global", or when both entries were
stored while `stmts` was processed and `stmts` opens no scope (no scope is opened between
the storing of entry `i` and the storing of entry `j`), entry `j` starts at or after the end
of entry `i`. -/
theorem same_scope_no_overlap_between_openings (g : Globals) (h : Reachable g)
    (stmts later : List Stmt) (i j : Nat) (hij : i < j)
    (hj : j < (run later (run stmts g)).symbolCount)
    (hs : ((run later (run stmts g)).symbolTable i).scope =
      ((run later (run stmts g)).symbolTable j).scope)
    (hcase : ((run later (run stmts g)).symbolTable i).scope = "Global" ∨
      (g.symbolCount ≤ i ∧ j < (run stmts g).symbolCount ∧
        ∀ st, st ∈ stmts → st.isOpen = false)) :
    ((run later (run stmts g)).symbolTable j).address_or_offset ≥
      ((run later (run stmts g)).symbolTable i).address_or_offset +
        ((run later (run stmts g)).symbolTable i).size := by
  by_cases hg : ((run later (run stmts g)).symbolTable i).scope = "Global"
  · obtain ⟨_, _, h3⟩ := reachable_globalOrdered (run later (run stmts g))
      (reachable_run later (run stmts g) (reachable_run stmts g h))
    exact h3 i j hij hj hg (hs ▸ hg)
  · rcases hcase with hcase | hcase
    · exact absurd hcase hg
    · obtain ⟨hi0, hjm, hno⟩ := hcase
      obtain ⟨_, hkeep⟩ := appendOnly_run later (run stmts g)
      have hei := hkeep i (by omega)
      have hej := hkeep j hjm
      rw [hei, hej] at hs
      rw [hei] at hg
      rw [hei, hej]
      obtain ⟨_, h2⟩ :=
        localOrderedFrom_run g.symbolCount stmts g (localOrderedFrom_count g) hno
      exact h2 i j hi0 hij hjm hg (hs ▸ hg)

/-- C6, amended, at two declarations inside one opening of the scope `f`, seen after a later
opening of another scope: in `void f`, `int a;`, `float b;`, `void k`, `int c;` the entries
0 and 1 do not overlap. -/
theorem same_scope_no_overlap_between_openings_witness :
    Reachable (exec (Stmt.openScope "f") freshRun) ∧
      (0 : Nat) < 1 ∧
      1 < (run laterOpening
        (run twoLocals (exec (Stmt.openScope "f") freshRun))).symbolCount ∧
      ((run laterOpening
          (run twoLocals (exec (Stmt.openScope "f") freshRun))).symbolTable 0).scope =
        ((run laterOpening
          (run twoLocals (exec (Stmt.openScope "f") freshRun))).symbolTable 1).scope ∧
      ((exec (Stmt.openScope "f") freshRun).symbolCount ≤ 0 ∧
        1 < (run twoLocals (exec (Stmt.openScope "f") freshRun)).symbolCount ∧
        ∀ st, st ∈ twoLocals → st.isOpen = false) ∧
      ((run laterOpening
          (run twoLocals (exec (Stmt.openScope "f") freshRun))).symbolTable
            1).address_or_offset ≥
        ((run laterOpening
            (run twoLocals (exec (Stmt.openScope "f") freshRun))).symbolTable
              0).address_or_offset +
          ((run laterOpening
            (run twoLocals (exec (Stmt.openScope "f") freshRun))).symbolTable 0).size :=
  ⟨Reachable.step (Stmt.openScope "f") freshRun (Reachable.reset initialGlobals),
    by decide, by decide, by decide, ⟨by decide, by decide, by decide⟩,
    same_scope_no_overlap_between_openings (exec (Stmt.openScope "f") freshRun)
      (Reachable.step (Stmt.openScope "f") freshRun (Reachable.reset initialGlobals))
      twoLocals laterOpening 0 1 (by decide) (by decide) (by decide)
      (Or.inr ⟨by decide, by decide, by decide⟩)⟩

/-- C7 as stated fails for the scope name "Global": after `pushScope "Global"` the scope is
current, the next declaration `int x;` is accepted, and it is stored at address 1000, not at
offset 0. -/
theorem local_offset_reset_counterexample :
    (pushScope "Global" freshRun).currentScope = "Global" ∧
      (handleDeclaration "int" "x" (pushScope "Global" freshRun)).symbolCount =
        (pushScope "Global" freshRun).symbolCount + 1 ∧
      ((handleDeclaration "int" "x" (pushScope "Global" freshRun)).symbolTable
          (pushScope "Global" freshRun).symbolCount).address_or_offset = 1000 ∧
      ¬ (((handleDeclaration "int" "x" (pushScope "Global" freshRun)).symbolTable
          (pushScope "Global" freshRun).symbolCount).address_or_offset = 0) :=
  ⟨by decide, by decide, by decide, by decide⟩

/-- C7, amended. For every state and every scope name other than "Global": after
`pushScope scopeName` and any statements during which nothing is stored and after which the
opened scope is the current scope, a declaration that is accepted is stored at the next index
with location 0 and with the opened scope (the first 19 characters of `scopeName`). -/
theorem local_offset_reset (g : Globals) (scopeName : String) (stmts : List Stmt)
    (typeStr name : String) (hname : scopeName ≠ "Global")
    (hquiet : (run stmts (pushScope scopeName g)).symbolCount = g.symbolCount)
    (hscope : (run stmts (pushScope scopeName g)).currentScope =
      (pushScope scopeName g).currentScope)
    (hacc : (handleDeclaration typeStr name (run stmts (pushScope scopeName g))).symbolCount =
      g.symbolCount + 1) :
    ((handleDeclaration typeStr name (run stmts (pushScope scopeName g))).symbolTable
        g.symbolCount).address_or_offset = 0 ∧
      ((handleDeclaration typeStr name (run stmts (pushScope scopeName g))).symbolTable
        g.symbolCount).scope = scopeCopy scopeName ∧
      ((handleDeclaration typeStr name (run stmts (pushScope scopeName g))).symbolTable
        g.symbolCount).name = name := by
  have hzero : (run stmts (pushScope scopeName g)).nextLocalOffset = 0 :=
    run_offset_zero stmts (pushScope scopeName g) rfl hquiet
  have hcur : (run stmts (pushScope scopeName g)).currentScope = scopeCopy scopeName := hscope
  have hloc : ¬ scopeCopy scopeName = "Global" := fun hc =>
    hname (scopeCopy_eq_global scopeName hc)
  rcases handleDeclaration_cases typeStr name (run stmts (pushScope scopeName g)) with hd | hd
  · rw [hd] at hacc
    have hsame : (countError (run stmts (pushScope scopeName g))).symbolCount =
        (run stmts (pushScope scopeName g)).symbolCount := rfl
    omega
  · obtain ⟨_, _, _, he⟩ := hd
    rw [he, ← hquiet, storeEntry_new, hcur]
    simp only [if_neg hloc]
    exact ⟨hzero, trivial, trivial⟩

/-- C7, amended, at scenario 4: `z` declared inside `f` gets offset 0. -/
theorem local_offset_reset_witness :
    ("f" : String) ≠ "Global" ∧
      (run [] (pushScope "f" freshRun)).symbolCount = freshRun.symbolCount ∧
      (run [] (pushScope "f" freshRun)).currentScope = (pushScope "f" freshRun).currentScope ∧
      (handleDeclaration "int" "z" (run [] (pushScope "f" freshRun))).symbolCount =
        freshRun.symbolCount + 1 ∧
      ((handleDeclaration "int" "z" (run [] (pushScope "f" freshRun))).symbolTable
        freshRun.symbolCount).address_or_offset = 0 :=
  ⟨by decide, by decide, by decide, by decide,
    (local_offset_reset freshRun "f" [] "int" "z" (by decide) (by decide) (by decide)
      (by decide)).1⟩

/-- C8. `lookupSymbol name` returns the index `i` exactly when `i` is the smallest index
below `symbolCount` whose entry has that name (scopes play no part), it returns -1 exactly
when no stored entry has that name, and it returns nothing else. -/
theorem lookupSymbol_spec (g : Globals) (name : String) :
    (∀ i : Nat, lookupSymbol name g = (i : Int) ↔
      (i < g.symbolCount ∧ (g.symbolTable i).name = name ∧
        ∀ j, j < i → (g.symbolTable j).name ≠ name)) ∧
    (lookupSymbol name g = -1 ↔ ∀ i, i < g.symbolCount → (g.symbolTable i).name ≠ name) ∧
    (lookupSymbol name g = -1 ∨
      ∃ i : Nat, i < g.symbolCount ∧ lookupSymbol name g = (i : Int)) := by
  refine ⟨?_, ?_, ?_⟩
  · intro i
    unfold lookupSymbol
    rw [lookupLoop_eq_index_iff]
    constructor
    · intro h
      obtain ⟨_, h2, h3, h4⟩ := h
      exact ⟨by omega, h3, fun j hj => h4 j (Nat.zero_le j) hj⟩
    · intro h
      obtain ⟨h2, h3, h4⟩ := h
      exact ⟨Nat.zero_le i, by omega, h3, fun j _ hj => h4 j hj⟩
  · unfold lookupSymbol
    rw [lookupLoop_eq_neg_one_iff]
    constructor
    · intro h i hi
      exact h i (Nat.zero_le i) (by omega)
    · intro h k _ hk
      exact h k (by omega)
  · unfold lookupSymbol
    rcases lookupLoop_range g.symbolTable name g.symbolCount 0 with h | h
    · exact Or.inl h
    · obtain ⟨k, hk⟩ := h
      right
      refine ⟨k, ?_, hk⟩
      rw [lookupLoop_eq_index_iff] at hk
      omega

/-- C9 as stated fails at scenario 4: the global `z` is inserted with success at index 1, and
`lookupSymbol "z"` then returns 0, the index of the local `z` of `f`. -/
theorem insert_then_lookup_counterexample :
    Reachable (run scenario4Local freshRun) ∧
      (insertSymbol "z" DataType.TYPE_INT "Global" (run scenario4Local freshRun)).1 = 1 ∧
      (run scenario4Local freshRun).symbolCount = 1 ∧
      ((insertSymbol "z" DataType.TYPE_INT "Global" (run scenario4Local freshRun)).2.symbolTable
        1).name = "z" ∧
      lookupSymbol "z"
        (insertSymbol "z" DataType.TYPE_INT "Global" (run scenario4Local freshRun)).2 = 0 ∧
      ¬ (lookupSymbol "z"
          (insertSymbol "z" DataType.TYPE_INT "Global" (run scenario4Local freshRun)).2 =
        ((run scenario4Local freshRun).symbolCount : Int)) :=
  ⟨reachable_run scenario4Local freshRun (Reachable.reset initialGlobals), by decide,
    by decide, by decide, by decide, by decide⟩

/-- C9, amended. For a name `x` of fewer than `NAME_SIZE` characters: when
`insertSymbol x type scope` succeeds, the entry is stored at the old `symbolCount` with name
`x`; `lookupSymbol x` immediately afterwards returns that index exactly when no entry stored
before (in any scope) has name `x`, and otherwise it returns the same index as before the
insertion, that of the first earlier entry named `x`. -/
theorem insert_then_lookup (g : Globals) (x : String) (type : DataType) (scope : String)
    (hname : x.length < NAME_SIZE)
    (hacc : (insertSymbol x type scope g).1 = 1) :
    (((insertSymbol x type scope g).2.symbolTable g.symbolCount).name = x ∧
      ((insertSymbol x type scope g).2.symbolTable g.symbolCount).name.length <
        NAME_SIZE) ∧
      (lookupSymbol x (insertSymbol x type scope g).2 = (g.symbolCount : Int) ↔
        ∀ i, i < g.symbolCount → (g.symbolTable i).name ≠ x) ∧
      (∀ i : Nat, lookupSymbol x g = (i : Int) →
        lookupSymbol x (insertSymbol x type scope g).2 = (i : Int)) := by
  rcases insertSymbol_cases x type scope g with h | h
  · rw [h] at hacc
    have h01 : (0 : Int) = 1 := hacc
    exact absurd h01 (by decide)
  · obtain ⟨_, _, he⟩ := h
    rw [he]
    refine ⟨?_, ?_, ?_⟩
    · rw [storeEntry_new]
      exact ⟨rfl, hname⟩
    · unfold lookupSymbol
      rw [lookupLoop_eq_index_iff]
      constructor
      · intro hl i hi
        obtain ⟨_, _, _, h4⟩ := hl
        have := h4 i (Nat.zero_le i) hi
        rw [storeEntry_old x type scope g i hi] at this
        exact this
      · intro hl
        refine ⟨Nat.zero_le _, ?_, ?_, ?_⟩
        · rw [storeEntry_count]
          omega
        · rw [storeEntry_new]
        · intro i _ hi
          rw [storeEntry_old x type scope g i hi]
          exact hl i hi
    · intro i hi
      exact (appendOnly_lookupStable g _ (appendOnly_storeEntry x type scope g) x (i : Int)
        (Int.ofNat_nonneg i) hi).1

/-- C9, amended, at the first insertion of a run: `x` is found at index 0. -/
theorem insert_then_lookup_witness :
    ("x" : String).length < NAME_SIZE ∧
      (insertSymbol "x" DataType.TYPE_INT "Global" freshRun).1 = 1 ∧
      (∀ i, i < freshRun.symbolCount → (freshRun.symbolTable i).name ≠ "x") ∧
      lookupSymbol "x" (insertSymbol "x" DataType.TYPE_INT "Global" freshRun).2 =
        (freshRun.symbolCount : Int) :=
  ⟨by decide, by decide, fun i hi => absurd hi (Nat.not_lt_zero i),
    (insert_then_lookup freshRun "x" DataType.TYPE_INT "Global" (by decide)
      (by decide)).2.1.2 (fun i hi => absurd hi (Nat.not_lt_zero i))⟩

/-- C10. Append-only store and lookup stability: each of `insertSymbol` (accepted or
rejected), `handleDeclaration`, `pushScope`, `popScope`, `handleExpression` and
`handleArithmeticExpression` leaves every stored entry unchanged at its index and does not
decrease `symbolCount`; hence a lookup that returned an index `i ≥ 0` before the operation
returns `i` after it, and entry `i` has the same fields. -/
theorem append_only_lookup_stable (g : Globals) :
    (∀ (name : String) (type : DataType) (scope : String),
      AppendOnly g (insertSymbol name type scope g).2 ∧
        LookupStable g (insertSymbol name type scope g).2) ∧
    (∀ typeStr name : String,
      AppendOnly g (handleDeclaration typeStr name g) ∧
        LookupStable g (handleDeclaration typeStr name g)) ∧
    (∀ scopeName : String,
      AppendOnly g (pushScope scopeName g) ∧ LookupStable g (pushScope scopeName g)) ∧
    (AppendOnly g (popScope g) ∧ LookupStable g (popScope g)) ∧
    (∀ targetName sourceName : String,
      AppendOnly g (handleExpression targetName sourceName g) ∧
        LookupStable g (handleExpression targetName sourceName g)) ∧
    (∀ (target source : String) (op : Char) (number : String),
      AppendOnly g (handleArithmeticExpression target source op number g) ∧
        LookupStable g (handleArithmeticExpression target source op number g)) := by
  refine ⟨?_, ?_, ?_, ?_, ?_, ?_⟩
  · intro name type scope
    exact ⟨appendOnly_insertSymbol name type scope g,
      appendOnly_lookupStable g _ (appendOnly_insertSymbol name type scope g)⟩
  · intro typeStr name
    exact ⟨appendOnly_handleDeclaration typeStr name g,
      appendOnly_lookupStable g _ (appendOnly_handleDeclaration typeStr name g)⟩
  · intro scopeName
    have h : AppendOnly g (pushScope scopeName g) := appendOnly_of_table_eq g _ rfl rfl
    exact ⟨h, appendOnly_lookupStable g _ h⟩
  · exact ⟨appendOnly_popScope g, appendOnly_lookupStable g _ (appendOnly_popScope g)⟩
  · intro targetName sourceName
    exact ⟨appendOnly_handleExpression targetName sourceName g,
      appendOnly_lookupStable g _ (appendOnly_handleExpression targetName sourceName g)⟩
  · intro target source op number
    exact ⟨appendOnly_handleExpression target source g,
      appendOnly_lookupStable g _ (appendOnly_handleExpression target source g)⟩

/-! ## Scope operations, unknown types and assignments -/

/-- C11 as stated fails for a scope name of 20 characters or more: after `pushScope` with a
name of 26 characters the current scope is its first 19 characters, not the name. -/
theorem pushScope_postcondition_counterexample :
    (pushScope longScopeName freshRun).currentScope = "abcdefghijklmnopqrs" ∧
      ¬ ((pushScope longScopeName freshRun).currentScope = longScopeName) :=
  ⟨by decide, by decide⟩

/-- C11, amended. After `pushScope scopeName` the current scope is the first 19 characters
of `scopeName` (so it is `scopeName` itself when that has at most 19 characters, and in
every case it has at most 19 characters), `nextLocalOffset` is 0, and the table,
`symbolCount`, `nextGlobalAddress` and `compilationErrorCount` are unchanged. -/
theorem pushScope_postcondition (g : Globals) (scopeName : String) :
    (pushScope scopeName g).currentScope = String.mk (scopeName.data.take 19) ∧
      (scopeName.length ≤ 19 → (pushScope scopeName g).currentScope = scopeName) ∧
      (pushScope scopeName g).currentScope.length ≤ 19 ∧
      (pushScope scopeName g).nextLocalOffset = 0 ∧
      (pushScope scopeName g).symbolTable = g.symbolTable ∧
      (pushScope scopeName g).symbolCount = g.symbolCount ∧
      (pushScope scopeName g).nextGlobalAddress = g.nextGlobalAddress ∧
      (pushScope scopeName g).compilationErrorCount = g.compilationErrorCount :=
  ⟨rfl, fun h => scopeCopy_of_short scopeName h, scopeCopy_length scopeName, rfl, rfl, rfl,
    rfl, rfl⟩

/-- C12. After `popScope` the current scope is "Global"; when it already was "Global" the
whole state is unchanged; the table, `symbolCount`, both cursors and
`compilationErrorCount` are unchanged in both cases; and `popScope` is idempotent. -/
theorem popScope_postcondition (g : Globals) :
    (popScope g).currentScope = "Global" ∧
      (g.currentScope = "Global" → popScope g = g) ∧
      (popScope g).symbolTable = g.symbolTable ∧
      (popScope g).symbolCount = g.symbolCount ∧
      (popScope g).nextGlobalAddress = g.nextGlobalAddress ∧
      (popScope g).nextLocalOffset = g.nextLocalOffset ∧
      (popScope g).compilationErrorCount = g.compilationErrorCount ∧
      popScope (popScope g) = popScope g := by
  obtain ⟨h1, h2, h3, h4, h5⟩ := popScope_frame g
  have hcur : (popScope g).currentScope = "Global" := by
    unfold popScope
    by_cases h : g.currentScope ≠ "Global"
    · rw [if_pos h]
    · rw [if_neg h]
      exact not_not.mp h
  have hnoop : ∀ g2 : Globals, g2.currentScope = "Global" → popScope g2 = g2 := by
    intro g2 hg2
    unfold popScope
    rw [if_neg (not_not.mpr hg2)]
  exact ⟨hcur, hnoop g, h1, h2, h3, h4, h5, hnoop (popScope g) hcur⟩

theorem stringToType_unknown (typeStr : String) (h1 : typeStr ≠ "int")
    (h2 : typeStr ≠ "float") (h3 : typeStr ≠ "char") :
    stringToType typeStr = DataType.TYPE_UNKNOWN := by
  unfold stringToType
  rw [if_neg h1, if_neg h2, if_neg h3]

/-- C13. For a type keyword that is not exactly `int`, `float` or `char`,
`handleDeclaration` adds exactly 1 to `compilationErrorCount` and leaves the table,
`symbolCount`, both cursors and `currentScope` unchanged; `stringToType` maps the three
keywords to `TYPE_INT`, `TYPE_FLOAT` and `TYPE_CHAR`, and rejects `Int`, `integer`,
`double` and the empty string. -/
theorem unknown_type_rejected (g : Globals) (typeStr name : String)
    (h1 : typeStr ≠ "int") (h2 : typeStr ≠ "float") (h3 : typeStr ≠ "char") :
    ((handleDeclaration typeStr name g).compilationErrorCount =
        g.compilationErrorCount + 1 ∧
      (handleDeclaration typeStr name g).symbolTable = g.symbolTable ∧
      (handleDeclaration typeStr name g).symbolCount = g.symbolCount ∧
      (handleDeclaration typeStr name g).nextGlobalAddress = g.nextGlobalAddress ∧
      (handleDeclaration typeStr name g).nextLocalOffset = g.nextLocalOffset ∧
      (handleDeclaration typeStr name g).currentScope = g.currentScope) ∧
    (stringToType "int" = DataType.TYPE_INT ∧ stringToType "float" = DataType.TYPE_FLOAT ∧
      stringToType "char" = DataType.TYPE_CHAR) ∧
    (stringToType "Int" = DataType.TYPE_UNKNOWN ∧
      stringToType "integer" = DataType.TYPE_UNKNOWN ∧
      stringToType "double" = DataType.TYPE_UNKNOWN ∧
      stringToType "" = DataType.TYPE_UNKNOWN) := by
  refine ⟨?_, ⟨by decide, by decide, by decide⟩, ⟨by decide, by decide, by decide, by decide⟩⟩
  unfold handleDeclaration
  rw [if_pos (stringToType_unknown typeStr h1 h2 h3)]
  exact ⟨rfl, rfl, rfl, rfl, rfl, rfl⟩

/-- C13 at `Int x;` on a fresh run: one diagnostic, nothing stored. -/
theorem unknown_type_rejected_witness :
    ("Int" : String) ≠ "int" ∧ ("Int" : String) ≠ "float" ∧ ("Int" : String) ≠ "char" ∧
      (handleDeclaration "Int" "x" freshRun).compilationErrorCount = 1 ∧
      (handleDeclaration "Int" "x" freshRun).symbolCount = 0 :=
  ⟨by decide, by decide, by decide,
    (unknown_type_rejected freshRun "Int" "x" (by decide) (by decide) (by decide)).1.1,
    (unknown_type_rejected freshRun "Int" "x" (by decide) (by decide) (by decide)).1.2.2.1⟩

/-- C14. `handleExpression` adds to `compilationErrorCount` one for the target when its
lookup returns -1 and, independently, one for the source when its lookup returns -1 (so 2
when both are unresolved, 0 when both resolve, whatever their types), and it never changes
the table, `symbolCount`, the cursors or `currentScope`; the only message printed when both
resolve is the warning for different types. -/
theorem assignment_diagnostics (g : Globals) (targetName sourceName : String) :
    (handleExpression targetName sourceName g).compilationErrorCount =
        g.compilationErrorCount +
          (if lookupSymbol targetName g = -1 then 1 else 0) +
          (if lookupSymbol sourceName g = -1 then 1 else 0) ∧
      (lookupSymbol targetName g ≠ -1 → lookupSymbol sourceName g ≠ -1 →
        (handleExpression targetName sourceName g).compilationErrorCount =
          g.compilationErrorCount ∧
        ∀ d, d ∈ handleExpressionDiagnostics targetName sourceName g →
          ∃ t1 t2, d = Diagnostic.typeWarning t1 t2) ∧
      (lookupSymbol targetName g = -1 → lookupSymbol sourceName g = -1 →
        (handleExpression targetName sourceName g).compilationErrorCount =
          g.compilationErrorCount + 2) ∧
      (handleExpression targetName sourceName g).symbolTable = g.symbolTable ∧
      (handleExpression targetName sourceName g).symbolCount = g.symbolCount ∧
      (handleExpression targetName sourceName g).nextGlobalAddress = g.nextGlobalAddress ∧
      (handleExpression targetName sourceName g).nextLocalOffset = g.nextLocalOffset ∧
      (handleExpression targetName sourceName g).currentScope = g.currentScope := by
  obtain ⟨f1, f2, f3, f4, f5⟩ := handleExpression_frame targetName sourceName g
  have hcount : (handleExpression targetName sourceName g).compilationErrorCount =
      g.compilationErrorCount +
        (if lookupSymbol targetName g = -1 then 1 else 0) +
        (if lookupSymbol sourceName g = -1 then 1 else 0) := by
    unfold handleExpression
    by_cases h1 : lookupSymbol targetName g = -1 <;>
      by_cases h2 : lookupSymbol sourceName g = -1 <;> simp [h1, h2]
  refine ⟨hcount, ?_, ?_, f1, f2, f3, f4, f5⟩
  · intro h1 h2
    constructor
    · rw [hcount, if_neg h1, if_neg h2]
      omega
    · intro d hd
      unfold handleExpressionDiagnostics at hd
      simp only [if_neg h1, if_neg h2, List.nil_append, h1, h2, ne_eq, not_false_eq_true,
        and_self, if_true] at hd
      by_cases ht : (g.symbolTable (lookupSymbol targetName g).toNat).type =
          (g.symbolTable (lookupSymbol sourceName g).toNat).type
      · simp [ht] at hd
      · simp [ht] at hd
        exact ⟨_, _, hd⟩
  · intro h1 h2
    rw [hcount, if_pos h1, if_pos h2]
    omega

/-- C15. `handleArithmeticExpression target source op number` produces the same state as
`handleExpression target source` and the same errors and warning; the operator and the
operand do not influence either. -/
theorem arithmetic_assignment_equivalent (g : Globals) (target source : String) :
    (∀ (op : Char) (number : String),
      handleArithmeticExpression target source op number g =
          handleExpression target source g ∧
        handleArithmeticExpressionDiagnostics target source op number g =
          handleExpressionDiagnostics target source g) ∧
    (∀ (op op2 : Char) (number number2 : String),
      handleArithmeticExpression target source op number g =
          handleArithmeticExpression target source op2 number2 g ∧
        handleArithmeticExpressionDiagnostics target source op number g =
          handleArithmeticExpressionDiagnostics target source op2 number2 g) := by
  constructor
  · intro op number
    exact ⟨handleArithmeticExpression_eq target source op number g, rfl⟩
  · intro op op2 number number2
    exact ⟨rfl, rfl⟩

/-! ## Runs from two earlier states, well-formed entries and cursor bounds -/

theorem sameVisible_lookupSymbol (g g2 : Globals) (h : SameVisible g g2) (x : String) :
    lookupSymbol x g = lookupSymbol x g2 := by
  obtain ⟨hc, ht, _⟩ := h
  unfold lookupSymbol
  rw [← hc]
  apply lookupLoop_congr
  intro k _ hk
  exact ht k (by omega)

theorem sameVisible_declared (g g2 : Globals) (h : SameVisible g g2) (name scope : String) :
    Declared name scope g ↔ Declared name scope g2 := by
  obtain ⟨hc, ht, _⟩ := h
  constructor
  · intro hd
    obtain ⟨k, h1, h2, h3⟩ := hd
    refine ⟨k, by omega, ?_, ?_⟩
    · rw [← ht k h1]
      exact h2
    · rw [← ht k h1]
      exact h3
  · intro hd
    obtain ⟨k, h1, h2, h3⟩ := hd
    have hk : k < g.symbolCount := by omega
    refine ⟨k, hk, ?_, ?_⟩
    · rw [ht k hk]
      exact h2
    · rw [ht k hk]
      exact h3

theorem sameVisible_countError (g g2 : Globals) (h : SameVisible g g2) :
    SameVisible (countError g) (countError g2) := by
  obtain ⟨h1, h2, h3, h4, h5, h6⟩ := h
  refine ⟨h1, h2, h3, h4, h5, ?_⟩
  show g.compilationErrorCount + 1 = g2.compilationErrorCount + 1
  rw [h6]

theorem sameVisible_storeEntry (g g2 : Globals) (h : SameVisible g g2) (name : String)
    (type : DataType) (scope : String) :
    SameVisible (storeEntry name type scope g) (storeEntry name type scope g2) := by
  obtain ⟨h1, h2, h3, h4, h5, h6⟩ := h
  refine ⟨?_, ?_, ?_, ?_, h5, h6⟩
  · rw [storeEntry_count, storeEntry_count, h1]
  · intro i hi
    rw [storeEntry_count] at hi
    by_cases hi2 : i < g.symbolCount
    · rw [storeEntry_old _ _ _ _ i hi2, storeEntry_old _ _ _ _ i (by omega)]
      exact h2 i hi2
    · have hi3 : i = g.symbolCount := by omega
      subst hi3
      rw [storeEntry_new]
      rw [h1, storeEntry_new, h3, h4]
  · show (if scope = "Global" then g.nextGlobalAddress + getSize type
        else g.nextGlobalAddress) =
      (if scope = "Global" then g2.nextGlobalAddress + getSize type
        else g2.nextGlobalAddress)
    rw [h3]
  · show (if scope = "Global" then g.nextLocalOffset
        else g.nextLocalOffset + getSize type) =
      (if scope = "Global" then g2.nextLocalOffset
        else g2.nextLocalOffset + getSize type)
    rw [h4]

theorem sameVisible_handleDeclaration (g g2 : Globals) (h : SameVisible g g2)
    (typeStr name : String) :
    SameVisible (handleDeclaration typeStr name g) (handleDeclaration typeStr name g2) := by
  have hc := h.1
  have hs := h.2.2.2.2.1
  unfold handleDeclaration
  by_cases ht : stringToType typeStr = DataType.TYPE_UNKNOWN
  · rw [if_pos ht, if_pos ht]
    exact sameVisible_countError g g2 h
  · rw [if_neg ht, if_neg ht]
    by_cases hfull : MAX_SYMBOLS ≤ g.symbolCount
    · rw [insertSymbol_full _ _ _ g hfull, insertSymbol_full _ _ _ g2 (by omega)]
      exact sameVisible_countError g g2 h
    · by_cases hd : Declared name g.currentScope g
      · have hd2 : Declared name g2.currentScope g2 := by
          rw [← hs]
          exact (sameVisible_declared g g2 h name g.currentScope).1 hd
        rw [insertSymbol_declared _ _ _ g hd, insertSymbol_declared _ _ _ g2 hd2]
        exact sameVisible_countError g g2 h
      · have hd2 : ¬ Declared name g2.currentScope g2 := by
          rw [← hs]
          intro hd3
          exact hd ((sameVisible_declared g g2 h name g.currentScope).2 hd3)
        rw [insertSymbol_fresh _ _ _ g (by omega) hd,
          insertSymbol_fresh _ _ _ g2 (by omega) hd2, ← hs]
        exact sameVisible_storeEntry g g2 h name _ _

theorem handleExpression_errorCount (targetName sourceName : String) (g : Globals) :
    (handleExpression targetName sourceName g).compilationErrorCount =
      g.compilationErrorCount +
        (if lookupSymbol targetName g = -1 then 1 else 0) +
        (if lookupSymbol sourceName g = -1 then 1 else 0) := by
  unfold handleExpression
  by_cases h1 : lookupSymbol targetName g = -1 <;>
    by_cases h2 : lookupSymbol sourceName g = -1 <;> simp [h1, h2]

theorem sameVisible_handleExpression (g g2 : Globals) (h : SameVisible g g2)
    (targetName sourceName : String) :
    SameVisible (handleExpression targetName sourceName g)
      (handleExpression targetName sourceName g2) := by
  obtain ⟨a1, a2, a3, a4, a5⟩ := handleExpression_frame targetName sourceName g
  obtain ⟨b1, b2, b3, b4, b5⟩ := handleExpression_frame targetName sourceName g2
  have hl1 := sameVisible_lookupSymbol g g2 h targetName
  have hl2 := sameVisible_lookupSymbol g g2 h sourceName
  obtain ⟨h1, h2, h3, h4, h5, h6⟩ := h
  refine ⟨?_, ?_, ?_, ?_, ?_, ?_⟩
  · rw [a2, b2, h1]
  · intro i hi
    rw [a2] at hi
    rw [a1, b1]
    exact h2 i hi
  · rw [a3, b3, h3]
  · rw [a4, b4, h4]
  · rw [a5, b5, h5]
  · rw [handleExpression_errorCount, handleExpression_errorCount, hl1, hl2, h6]

theorem sameVisible_popScope (g g2 : Globals) (h : SameVisible g g2) :
    SameVisible (popScope g) (popScope g2) := by
  obtain ⟨h1, h2, h3, h4, h5, h6⟩ := h
  unfold popScope
  by_cases hs : g.currentScope ≠ "Global"
  · rw [if_pos hs, if_pos (h5 ▸ hs)]
    exact ⟨h1, h2, h3, h4, rfl, h6⟩
  · rw [if_neg hs, if_neg (h5 ▸ hs)]
    exact ⟨h1, h2, h3, h4, h5, h6⟩

theorem sameVisible_exec (st : Stmt) (g g2 : Globals) (h : SameVisible g g2) :
    SameVisible (exec st g) (exec st g2) := by
  cases st with
  | declare typeStr name => exact sameVisible_handleDeclaration g g2 h typeStr name
  | openScope scopeName =>
    obtain ⟨h1, h2, h3, _, _, h6⟩ := h
    exact ⟨h1, h2, h3, rfl, rfl, h6⟩
  | closeScope => exact sameVisible_popScope g g2 h
  | assign target source => exact sameVisible_handleExpression g g2 h target source
  | assignArith target source op number =>
    exact sameVisible_handleExpression g g2 h target source

theorem sameVisible_run (stmts : List Stmt) (g g2 : Globals) (h : SameVisible g g2) :
    SameVisible (run stmts g) (run stmts g2) := by
  induction stmts generalizing g g2 with
  | nil => exact h
  | cons st rest ih => exact ih (exec st g) (exec st g2) (sameVisible_exec st g g2 h)

theorem sameVisible_resetRun (g1 g2 : Globals) : SameVisible (resetRun g1) (resetRun g2) := by
  refine ⟨rfl, ?_, rfl, rfl, rfl, rfl⟩
  intro i hi
  exact absurd hi (Nat.not_lt_zero i)

theorem wellFormedEntries_exec (st : Stmt) (g : Globals) (hw : WellFormedEntries g) :
    WellFormedEntries (exec st g) := by
  rcases exec_cases st g with h | h
  · obtain ⟨h1, h2, _, _⟩ := h
    intro i hi
    rw [h2] at hi
    rw [h1]
    exact hw i hi
  · obtain ⟨typeStr, name, _, ht, _, _, he⟩ := h
    rw [he]
    intro i hi
    rw [storeEntry_count] at hi
    by_cases hi2 : i < g.symbolCount
    · rw [storeEntry_old _ _ _ _ i hi2]
      exact hw i hi2
    · have hi3 : i = g.symbolCount := by omega
      subst hi3
      rw [storeEntry_new]
      exact ⟨ht, rfl, rfl⟩

theorem reachable_wellFormedEntries (g : Globals) (h : Reachable g) :
    WellFormedEntries g := by
  induction h with
  | reset g0 =>
    intro i hi
    exact absurd hi (Nat.not_lt_zero i)
  | step st g _ ih => exact wellFormedEntries_exec st g ih

theorem getSize_le (type : DataType) : getSize type ≤ 8 := by
  cases type <;> decide

theorem globalSizeSum_congr (tbl tbl2 : Nat → SymbolEntry) (n : Nat)
    (h : ∀ i, i < n → tbl2 i = tbl i) : globalSizeSum tbl2 n = globalSizeSum tbl n := by
  induction n with
  | zero => rfl
  | succ n ih =>
    unfold globalSizeSum
    rw [ih (fun i hi => h i (by omega)), h n (by omega)]

theorem cursorBounds_storeEntry (name : String) (type : DataType) (scope : String)
    (g : Globals) (hb : CursorBounds g) (hc : g.symbolCount < MAX_SYMBOLS) :
    CursorBounds (storeEntry name type scope g) := by
  obtain ⟨_, b2, b3, b4, b5, b6, b7⟩ := hb
  have hnn := getSize_nonneg type
  have hle := getSize_le type
  have hsum : globalSizeSum (storeEntry name type scope g).symbolTable
      (storeEntry name type scope g).symbolCount =
      globalSizeSum g.symbolTable g.symbolCount +
        (if scope = "Global" then getSize type else 0) := by
    rw [storeEntry_count]
    show globalSizeSum (storeEntry name type scope g).symbolTable g.symbolCount +
      (if ((storeEntry name type scope g).symbolTable g.symbolCount).scope = "Global"
        then ((storeEntry name type scope g).symbolTable g.symbolCount).size else 0) = _
    rw [globalSizeSum_congr g.symbolTable (storeEntry name type scope g).symbolTable
      g.symbolCount (fun i hi => storeEntry_old name type scope g i hi), storeEntry_new]
  have hcount : ((storeEntry name type scope g).symbolCount : Int) =
      (g.symbolCount : Int) + 1 := by
    rw [storeEntry_count]
    omega
  have hg : (storeEntry name type scope g).nextGlobalAddress =
      (if scope = "Global" then g.nextGlobalAddress + getSize type
        else g.nextGlobalAddress) := rfl
  have hl : (storeEntry name type scope g).nextLocalOffset =
      (if scope = "Global" then g.nextLocalOffset
        else g.nextLocalOffset + getSize type) := rfl
  have hlocs : ∀ i, i < (storeEntry name type scope g).symbolCount →
      0 ≤ ((storeEntry name type scope g).symbolTable i).address_or_offset := by
    intro i hi
    rw [storeEntry_count] at hi
    by_cases hi2 : i < g.symbolCount
    · rw [storeEntry_old _ _ _ _ i hi2]
      exact b7 i hi2
    · have hi3 : i = g.symbolCount := by omega
      subst hi3
      rw [storeEntry_new]
      show 0 ≤ (if scope = "Global" then g.nextGlobalAddress else g.nextLocalOffset)
      unfold GLOBAL_START_ADDRESS at b3
      by_cases hs : scope = "Global"
      · rw [if_pos hs]
        omega
      · rw [if_neg hs]
        exact b5
  refine ⟨?_, ?_, ?_, ?_, ?_, ?_, hlocs⟩
  · rw [storeEntry_count]
    omega
  · rw [hsum, hg]
    by_cases hs : scope = "Global"
    · rw [if_pos hs, if_pos hs, b2]
      omega
    · rw [if_neg hs, if_neg hs, b2]
      omega
  · rw [hg]
    by_cases hs : scope = "Global"
    · rw [if_pos hs]
      omega
    · rw [if_neg hs]
      exact b3
  · rw [hg, hcount]
    by_cases hs : scope = "Global"
    · rw [if_pos hs]
      omega
    · rw [if_neg hs]
      omega
  · rw [hl]
    by_cases hs : scope = "Global"
    · rw [if_pos hs]
      exact b5
    · rw [if_neg hs]
      omega
  · rw [hl, hcount]
    by_cases hs : scope = "Global"
    · rw [if_pos hs]
      omega
    · rw [if_neg hs]
      omega

theorem cursorBounds_exec (st : Stmt) (g : Globals) (hb : CursorBounds g) :
    CursorBounds (exec st g) := by
  rcases exec_cases st g with h | h
  · obtain ⟨h1, h2, h3, h4⟩ := h
    obtain ⟨b1, b2, b3, b4, b5, b6, b7⟩ := hb
    unfold CursorBounds
    rw [h1, h2, h3]
    refine ⟨b1, b2, b3, b4, ?_, ?_, b7⟩
    · rcases h4 with h4 | h4
      · rw [h4]
        exact b5
      · rw [h4.2]
    · rcases h4 with h4 | h4
      · rw [h4]
        exact b6
      · rw [h4.2]
        omega
  · obtain ⟨typeStr, name, _, _, hc, _, he⟩ := h
    rw [he]
    exact cursorBounds_storeEntry name _ _ g hb hc

theorem cursorBounds_resetRun (g0 : Globals) : CursorBounds (resetRun g0) := by
  refine ⟨Nat.zero_le _, ?_, le_refl _, ?_, le_refl _, ?_, ?_⟩
  · show GLOBAL_START_ADDRESS = GLOBAL_START_ADDRESS + 0
    omega
  · show GLOBAL_START_ADDRESS ≤ GLOBAL_START_ADDRESS + 8 * ((0 : Nat) : Int)
    omega
  · show (0 : Int) ≤ 8 * ((0 : Nat) : Int)
    omega
  · intro i hi
    exact absurd hi (Nat.not_lt_zero i)

theorem reachable_cursorBounds (g : Globals) (h : Reachable g) : CursorBounds g := by
  induction h with
  | reset g0 => exact cursorBounds_resetRun g0
  | step st g _ ih => exact cursorBounds_exec st g ih

/-- C16. Idempotent reset: for two arbitrary earlier states (whatever their tables hold),
the reset sets the count to 0, the cursors to 1000 and 0, the scope to "Global" and the
error count to 0, and the same statements processed after the reset give the same count, the
same entries below the count, the same error count, the same cursors and the same current
scope. -/
theorem reset_run_independent (g1 g2 : Globals) (stmts : List Stmt) :
    ((resetRun g1).symbolCount = 0 ∧ (resetRun g1).nextGlobalAddress = 1000 ∧
      (resetRun g1).nextLocalOffset = 0 ∧ (resetRun g1).currentScope = "Global" ∧
      (resetRun g1).compilationErrorCount = 0 ∧
      (resetRun g1).symbolTable = g1.symbolTable) ∧
    (run stmts (resetRun g1)).symbolCount = (run stmts (resetRun g2)).symbolCount ∧
    (∀ i, i < (run stmts (resetRun g1)).symbolCount →
      (run stmts (resetRun g1)).symbolTable i = (run stmts (resetRun g2)).symbolTable i) ∧
    (run stmts (resetRun g1)).compilationErrorCount =
      (run stmts (resetRun g2)).compilationErrorCount ∧
    (run stmts (resetRun g1)).nextGlobalAddress =
      (run stmts (resetRun g2)).nextGlobalAddress ∧
    (run stmts (resetRun g1)).nextLocalOffset = (run stmts (resetRun g2)).nextLocalOffset ∧
    (run stmts (resetRun g1)).currentScope = (run stmts (resetRun g2)).currentScope := by
  obtain ⟨h1, h2, h3, h4, h5, h6⟩ :=
    sameVisible_run stmts (resetRun g1) (resetRun g2) (sameVisible_resetRun g1 g2)
  exact ⟨⟨rfl, rfl, rfl, rfl, rfl, rfl⟩, h1, h2, h6, h3, h4, h5⟩

/-- C17, the code at the line `a = b;` on a fresh run: the declaration format of line 292
converts two fields, `a` and `= b`, before the assignment formats are tried, so the line goes
to `handleDeclaration "a" "="`, which counts one error for the unknown type `a`; nothing is
stored and `compilationErrorCount` is 1, while `handleExpression "a" "b"` would give 2. -/
theorem parse_assignment_line_dispatch :
    sscanf formatScope (trim_whitespace "a = b;".data) = [] ∧
      sscanf formatDeclaration (trim_whitespace "a = b;".data) = ["a", "= b"] ∧
      sscanf formatName "= b".data = ["="] ∧
      (parseAndProcessLine "a = b;" freshRun).symbolCount = 0 ∧
      (parseAndProcessLine "a = b;" freshRun).compilationErrorCount = 1 ∧
      (handleDeclaration "a" "=" freshRun).compilationErrorCount = 1 ∧
      (handleExpression "a" "b" freshRun).compilationErrorCount = 2 ∧
      ¬ ((parseAndProcessLine "a = b;" freshRun).compilationErrorCount = 2) :=
  ⟨by decide, by decide, by decide, by decide, by decide, by decide, by decide, by decide⟩

/-- C18. Well-formed entries: in every reachable state every stored entry has type
`TYPE_INT`, `TYPE_FLOAT` or `TYPE_CHAR` (never `TYPE_UNKNOWN`), the size `getSize` gives for
its type (4, 8 and 1), hence a positive size, and status 1. -/
theorem well_formed_entries (g : Globals) (h : Reachable g) (i : Nat)
    (hi : i < g.symbolCount) :
    ((g.symbolTable i).type = DataType.TYPE_INT ∨
        (g.symbolTable i).type = DataType.TYPE_FLOAT ∨
        (g.symbolTable i).type = DataType.TYPE_CHAR) ∧
      (g.symbolTable i).type ≠ DataType.TYPE_UNKNOWN ∧
      (g.symbolTable i).size = getSize (g.symbolTable i).type ∧
      (getSize DataType.TYPE_INT = 4 ∧ getSize DataType.TYPE_FLOAT = 8 ∧
        getSize DataType.TYPE_CHAR = 1) ∧
      0 < (g.symbolTable i).size ∧
      (g.symbolTable i).status = 1 := by
  obtain ⟨h1, h2, h3⟩ := reachable_wellFormedEntries g h i hi
  refine ⟨?_, h1, h2, ⟨rfl, rfl, rfl⟩, ?_, h3⟩
  · cases ht : (g.symbolTable i).type with
    | TYPE_INT => exact Or.inl rfl
    | TYPE_FLOAT => exact Or.inr (Or.inl rfl)
    | TYPE_CHAR => exact Or.inr (Or.inr rfl)
    | TYPE_UNKNOWN => exact absurd ht h1
  · rw [h2]
    exact getSize_pos _ h1

/-- C18 at scenario 1: the entry `y` is a `TYPE_FLOAT` of size 8 with status 1. -/
theorem well_formed_entries_witness :
    Reachable (run scenario1 freshRun) ∧ 1 < (run scenario1 freshRun).symbolCount ∧
      ((run scenario1 freshRun).symbolTable 1).type = DataType.TYPE_FLOAT ∧
      ((run scenario1 freshRun).symbolTable 1).size = 8 ∧
      ((run scenario1 freshRun).symbolTable 1).status = 1 :=
  ⟨reachable_run scenario1 freshRun (Reachable.reset initialGlobals), by decide, by decide,
    by decide,
    (well_formed_entries (run scenario1 freshRun)
      (reachable_run scenario1 freshRun (Reachable.reset initialGlobals)) 1
      (by decide)).2.2.2.2.2⟩

/-- C19. Global cursor accounting: in every reachable state `nextGlobalAddress` is
`GLOBAL_START_ADDRESS` plus the sizes of the stored entries of scope "Global", it lies in
[1000, 1800], `nextLocalOffset` lies in [0, 800], adding the size of any type to either
cursor stays within the range of a 32-bit `int`, and every stored location is not
negative. -/
theorem global_cursor_accounting (g : Globals) (h : Reachable g) :
    g.nextGlobalAddress = GLOBAL_START_ADDRESS + globalSizeSum g.symbolTable g.symbolCount ∧
      (1000 ≤ g.nextGlobalAddress ∧ g.nextGlobalAddress ≤ 1800) ∧
      (0 ≤ g.nextLocalOffset ∧ g.nextLocalOffset ≤ 800) ∧
      (∀ type : DataType,
        -2147483648 ≤ g.nextGlobalAddress + getSize type ∧
        g.nextGlobalAddress + getSize type ≤ 2147483647 ∧
        -2147483648 ≤ g.nextLocalOffset + getSize type ∧
        g.nextLocalOffset + getSize type ≤ 2147483647) ∧
      (∀ i, i < g.symbolCount → 0 ≤ (g.symbolTable i).address_or_offset) := by
  obtain ⟨b1, b2, b3, b4, b5, b6, b7⟩ := reachable_cursorBounds g h
  unfold MAX_SYMBOLS at b1
  unfold GLOBAL_START_ADDRESS at b3 b4
  refine ⟨b2, ⟨b3, by omega⟩, ⟨b5, by omega⟩, ?_, b7⟩
  intro type
  have hnn := getSize_nonneg type
  have hle := getSize_le type
  refine ⟨by omega, by omega, by omega, by omega⟩

/-- C19 at scenario 1: after `int x;` and `float y;` the global cursor is 1012. -/
theorem global_cursor_accounting_witness :
    Reachable (run scenario1 freshRun) ∧
      globalSizeSum (run scenario1 freshRun).symbolTable
        (run scenario1 freshRun).symbolCount = 12 ∧
      (run scenario1 freshRun).nextGlobalAddress = 1012 ∧
      (run scenario1 freshRun).nextGlobalAddress =
        GLOBAL_START_ADDRESS + globalSizeSum (run scenario1 freshRun).symbolTable
          (run scenario1 freshRun).symbolCount :=
  ⟨reachable_run scenario1 freshRun (Reachable.reset initialGlobals), by decide, by decide,
    (global_cursor_accounting (run scenario1 freshRun)
      (reachable_run scenario1 freshRun (Reachable.reset initialGlobals))).1⟩

end SymbolTableManager
